import Mathlib

/-!
Verification development for the OptiCred amortization / effective-rate engine
(`modules/amortizacion.py`, `modules/interes.py`, `modules/simulaciones.py`).

Modelling conventions:
* Python floats are idealized as real numbers; monetary rounding
  (`round(x, 2)`) is modelled exactly as round-half-to-even on multiples of
  1/100 (`pyRound2`).
* The schedule generators are written once over a generic linear ordered
  field with a floor (so they are executable over `ℚ` for concrete
  evaluation) and instantiated at `ℝ` with the `rpow`-based rate conversion
  `tea_a_tem` for the source-level entry points.
* `numpy_financial.irr` is a numeric root finder; it is modelled
  relationally: a returned rate `r` is a root of the net-present-value
  function of the cash-flow list (`es_tir`), and a failed search is the
  absence of such a root (`Option`).
-/

set_option linter.unusedSectionVars false

namespace OptiCred

/-- Banker's rounding of `x` to an integer: round half to even, as Python's
built-in `round` does (on our idealized reals). -/
def pyRoundInt {α : Type*} [LinearOrderedField α] [FloorRing α] (x : α) : ℤ :=
  if Int.fract x = 1/2 then (if Even ⌊x⌋ then ⌊x⌋ else ⌊x⌋ + 1) else round x

/-- Python's `round(x, 2)`: round to the nearest multiple of 1/100, ties to
even. Every stored monetary cell in the source passes through this. -/
def pyRound2 {α : Type*} [LinearOrderedField α] [FloorRing α] (x : α) : α :=
  (pyRoundInt (x * 100) : α) / 100

section RoundLemmas

variable {α : Type*} [LinearOrderedField α] [FloorRing α]

lemma abs_pyRoundInt_sub (x : α) : |(pyRoundInt x : α) - x| ≤ 1/2 := by
  unfold pyRoundInt
  split
  · rename_i h
    rw [Int.fract] at h
    split
    · rw [abs_le]
      constructor <;> [linarith [h]; linarith [h]]
    · push_cast
      rw [abs_le]
      constructor <;> [linarith [h]; linarith [h]]
  · rw [abs_sub_comm]
    exact abs_sub_round x

lemma abs_pyRound2_sub (x : α) : |pyRound2 x - x| ≤ 1/200 := by
  unfold pyRound2
  have h := abs_pyRoundInt_sub (x * 100)
  have h100 : (0:α) < 100 := by norm_num
  have h2 : (pyRoundInt (x*100) : α) / 100 - x = ((pyRoundInt (x*100) : α) - x*100) / 100 := by
    field_simp
    ring
  rw [h2, abs_div, abs_of_pos h100]
  rw [div_le_div_iff₀ h100 (by norm_num : (0:α) < 200)]
  nlinarith [h]

lemma pyRound2_le (x : α) : pyRound2 x ≤ x + 1/200 := by
  have := abs_pyRound2_sub x
  rw [abs_le] at this
  linarith [this.2]

lemma le_pyRound2 (x : α) : x - 1/200 ≤ pyRound2 x := by
  have := abs_pyRound2_sub x
  rw [abs_le] at this
  linarith [this.1]

lemma pyRoundInt_nonneg {x : α} (hx : 0 ≤ x) : 0 ≤ pyRoundInt x := by
  unfold pyRoundInt
  have hf : (0:ℤ) ≤ ⌊x⌋ := Int.floor_nonneg.mpr hx
  split
  · split <;> omega
  · rw [round_eq]
    have : (0:α) ≤ x + 1/2 := by linarith
    exact Int.floor_nonneg.mpr this

lemma pyRound2_nonneg {x : α} (hx : 0 ≤ x) : 0 ≤ pyRound2 x := by
  unfold pyRound2
  have : (0:ℤ) ≤ pyRoundInt (x*100) := pyRoundInt_nonneg (by positivity)
  positivity

lemma pyRound2_zero : pyRound2 (0 : α) = 0 := by
  unfold pyRound2 pyRoundInt
  norm_num [Int.fract]

end RoundLemmas

/-- One row of an amortization table, as produced by
`generar_tabla_francesa` / `generar_tabla_alemana`
(`modules/amortizacion.py`): columns `mes, saldo_inicial, interes,
amortizacion, cuota, saldo_final`. All monetary fields hold the stored
(2-decimal rounded) values, exactly as the source appends them. -/
structure Fila (α : Type*) where
  mes : ℤ
  saldo_inicial : α
  interes : α
  amortizacion : α
  cuota : α
  saldo_final : α
deriving DecidableEq

instance {α : Type*} [Zero α] : Inhabited (Fila α) := ⟨⟨0, 0, 0, 0, 0, 0⟩⟩

section Tablas

variable {α : Type*} [LinearOrderedField α] [FloorRing α]

/-- Embeds `calcular_cuota_francesa` (amortizacion.py lines 10-28), with the
monthly rate `tem` passed explicitly (the source computes it from the TEA
via `tea_a_tem`; the `ℝ`-level wrapper below does the same). -/
def calcular_cuota_francesa_tem (monto tem : α) (plazo : ℕ) : α :=
  if tem = 0 then monto / plazo
  else monto * (tem * (1 + tem)^plazo) / ((1 + tem)^plazo - 1)

/-- The loop body of `generar_tabla_francesa` (amortizacion.py lines 43-57):
`fuel` months remain, `saldo` is the running unrounded balance, `mes` the
next month index. Each stored cell is rounded with `pyRound2`; the running
balance is carried forward unrounded (`saldo = saldo_final` in the source). -/
def filasFrancesa (tem cuota : α) : ℕ → α → ℤ → List (Fila α)
  | 0, _, _ => []
  | n + 1, saldo, mes =>
      ⟨mes, pyRound2 saldo, pyRound2 (saldo * tem), pyRound2 (cuota - saldo * tem),
        pyRound2 cuota, pyRound2 (max 0 (saldo - (cuota - saldo * tem)))⟩ ::
      filasFrancesa tem cuota n (saldo - (cuota - saldo * tem)) (mes + 1)

/-- Embeds `generar_tabla_francesa` (amortizacion.py lines 30-59), with the
monthly rate passed explicitly. -/
def generar_tabla_francesa_tem (monto tem : α) (plazo : ℕ) : List (Fila α) :=
  filasFrancesa tem (calcular_cuota_francesa_tem monto tem plazo) plazo monto 1

/-- Embeds `calcular_amortizacion_alemana` (amortizacion.py lines 63-74). -/
def calcular_amortizacion_alemana (monto : α) (plazo : ℕ) : α := monto / plazo

/-- The loop body of `generar_tabla_alemana` (amortizacion.py lines 110-125):
fixed principal portion `af`, interest on the running unrounded balance. -/
def filasAlemana (tem af : α) : ℕ → α → ℤ → List (Fila α)
  | 0, _, _ => []
  | n + 1, saldo, mes =>
      ⟨mes, pyRound2 saldo, pyRound2 (saldo * tem), pyRound2 af,
        pyRound2 (af + saldo * tem), pyRound2 (max 0 (saldo - af))⟩ ::
      filasAlemana tem af n (saldo - af) (mes + 1)

/-- Embeds `generar_tabla_alemana` (amortizacion.py lines 92-127), with the
monthly rate passed explicitly. -/
def generar_tabla_alemana_tem (monto tem : α) (plazo : ℕ) : List (Fila α) :=
  filasAlemana tem (calcular_amortizacion_alemana monto plazo) plazo monto 1

/-- Totals record returned by `calcular_totales` (amortizacion.py 131-140). -/
structure Totales (α : Type*) where
  total_intereses : α
  total_amortizacion : α
  total_pagado : α
deriving DecidableEq

/-- Embeds `calcular_totales` (amortizacion.py lines 131-140): column sums of
`interes`, `amortizacion`, `cuota`. A pandas sum over a typed empty column is
0, so the empty schedule yields all-zero totals. -/
def calcular_totales (tabla : List (Fila α)) : Totales α :=
  ⟨(tabla.map Fila.interes).sum, (tabla.map Fila.amortizacion).sum,
    (tabla.map Fila.cuota).sum⟩

end Tablas

section TablaLemmas

variable {α : Type*} [LinearOrderedField α] [FloorRing α]

/-- The unrounded running balance of the French loop after `k` months,
starting from `s`: the source's `saldo = saldo_final` chain. -/
def iterF (tem cuota : α) : ℕ → α → α
  | 0, s => s
  | k + 1, s => iterF tem cuota k (s - (cuota - s * tem))

/-- The unrounded running balance of the German loop after `k` months. -/
def iterA (af : α) : ℕ → α → α
  | 0, s => s
  | k + 1, s => iterA af k (s - af)

lemma iterA_eq (af : α) : ∀ (k : ℕ) (s : α), iterA af k s = s - k * af := by
  intro k
  induction k with
  | zero => intro s; simp [iterA]
  | succ k ih =>
      intro s
      rw [iterA, ih]
      push_cast
      ring

lemma filasFrancesa_length (tem cuota : α) :
    ∀ (n : ℕ) (s : α) (m : ℤ), (filasFrancesa tem cuota n s m).length = n := by
  intro n
  induction n with
  | zero => intro s m; rfl
  | succ n ih => intro s m; simp [filasFrancesa, ih]

lemma filasAlemana_length (tem af : α) :
    ∀ (n : ℕ) (s : α) (m : ℤ), (filasAlemana tem af n s m).length = n := by
  intro n
  induction n with
  | zero => intro s m; rfl
  | succ n ih => intro s m; simp [filasAlemana, ih]

lemma filasFrancesa_get (tem cuota : α) :
    ∀ (i n : ℕ) (s : α) (m : ℤ) (h : i < (filasFrancesa tem cuota n s m).length),
      (filasFrancesa tem cuota n s m).get ⟨i, h⟩ =
        ⟨m + i, pyRound2 (iterF tem cuota i s), pyRound2 (iterF tem cuota i s * tem),
          pyRound2 (cuota - iterF tem cuota i s * tem), pyRound2 cuota,
          pyRound2 (max 0 (iterF tem cuota (i+1) s))⟩ := by
  intro i
  induction i with
  | zero =>
      intro n s m h
      match n with
      | 0 => simp [filasFrancesa] at h
      | n + 1 => simp [filasFrancesa, iterF]
  | succ i ih =>
      intro n s m h
      match n with
      | 0 => simp [filasFrancesa] at h
      | n + 1 =>
          have h' : i < (filasFrancesa tem cuota n (s - (cuota - s * tem)) (m+1)).length := by
            rw [filasFrancesa_length]
            rw [filasFrancesa_length] at h
            omega
          have : (filasFrancesa tem cuota (n+1) s m).get ⟨i+1, h⟩ =
              (filasFrancesa tem cuota n (s - (cuota - s * tem)) (m+1)).get ⟨i, h'⟩ := rfl
          rw [this, ih]
          have hm : m + 1 + (i : ℤ) = m + ((i : ℕ) + 1 : ℕ) := by push_cast; ring
          rw [hm]
          rfl

lemma filasAlemana_get (tem af : α) :
    ∀ (i n : ℕ) (s : α) (m : ℤ) (h : i < (filasAlemana tem af n s m).length),
      (filasAlemana tem af n s m).get ⟨i, h⟩ =
        ⟨m + i, pyRound2 (iterA af i s), pyRound2 (iterA af i s * tem),
          pyRound2 af, pyRound2 (af + iterA af i s * tem),
          pyRound2 (max 0 (iterA af (i+1) s))⟩ := by
  intro i
  induction i with
  | zero =>
      intro n s m h
      match n with
      | 0 => simp [filasAlemana] at h
      | n + 1 => simp [filasAlemana, iterA]
  | succ i ih =>
      intro n s m h
      match n with
      | 0 => simp [filasAlemana] at h
      | n + 1 =>
          have h' : i < (filasAlemana tem af n (s - af) (m+1)).length := by
            rw [filasAlemana_length]
            rw [filasAlemana_length] at h
            omega
          have : (filasAlemana tem af (n+1) s m).get ⟨i+1, h⟩ =
              (filasAlemana tem af n (s - af) (m+1)).get ⟨i, h'⟩ := rfl
          rw [this, ih]
          have hm : m + 1 + (i : ℤ) = m + ((i : ℕ) + 1 : ℕ) := by push_cast; ring
          rw [hm]
          rfl

lemma iterF_closed (tem cuota : α) (htem : tem ≠ 0) :
    ∀ (k : ℕ) (s : α),
      iterF tem cuota k s = (s - cuota/tem) * (1+tem)^k + cuota/tem := by
  intro k
  induction k with
  | zero => intro s; simp [iterF]
  | succ k ih =>
      intro s
      rw [iterF, ih]
      have : s - (cuota - s * tem) - cuota/tem = (s - cuota/tem) * (1+tem) := by
        field_simp
        ring
      rw [this, mul_assoc, ← pow_succ']

/-- Denominator of the annuity formula is positive when `tem > 0`, `n ≥ 1`. -/
lemma annuity_denom_pos {tem : α} (htem : 0 < tem) {n : ℕ} (hn : 1 ≤ n) :
    0 < (1+tem)^n - 1 := by
  have : (1:α) < (1+tem)^n := one_lt_pow₀ (by linarith) (by omega)
  linarith

/-- Closed form of the running French balance when the installment is the
annuity installment: after `k` months the balance is
`monto * (q^n - q^k) / (q^n - 1)` with `q = 1 + tem`. -/
lemma iterF_francesa (monto tem : α) (htem : 0 < tem) (n : ℕ) (hn : 1 ≤ n) (k : ℕ) :
    iterF tem (calcular_cuota_francesa_tem monto tem n) k monto =
      monto * ((1+tem)^n - (1+tem)^k) / ((1+tem)^n - 1) := by
  have hd := annuity_denom_pos htem hn
  rw [iterF_closed _ _ (ne_of_gt htem), calcular_cuota_francesa_tem, if_neg (ne_of_gt htem)]
  field_simp
  ring

lemma iterF_francesa_nonneg (monto tem : α) (hm : 0 ≤ monto) (htem : 0 < tem)
    (n : ℕ) (hn : 1 ≤ n) (k : ℕ) (hk : k ≤ n) :
    0 ≤ iterF tem (calcular_cuota_francesa_tem monto tem n) k monto := by
  rw [iterF_francesa monto tem htem n hn k]
  have hd := annuity_denom_pos htem hn
  have hq : (1+tem)^k ≤ (1+tem)^n := pow_le_pow_right₀ (by linarith) hk
  have : 0 ≤ monto * ((1+tem)^n - (1+tem)^k) := by nlinarith
  positivity

lemma iterF_francesa_final (monto tem : α) (htem : 0 < tem) (n : ℕ) (hn : 1 ≤ n) :
    iterF tem (calcular_cuota_francesa_tem monto tem n) n monto = 0 := by
  rw [iterF_francesa monto tem htem n hn n]
  simp

/-- The French installment is positive for positive principal and rate. -/
lemma cuota_francesa_pos (monto tem : α) (hm : 0 < monto) (htem : 0 < tem)
    (n : ℕ) (hn : 1 ≤ n) : 0 < calcular_cuota_francesa_tem monto tem n := by
  rw [calcular_cuota_francesa_tem, if_neg (ne_of_gt htem)]
  have hd := annuity_denom_pos htem hn
  have hq : (0:α) < (1+tem)^n := by positivity
  have : 0 < monto * (tem * (1+tem)^n) := by positivity
  positivity

end TablaLemmas

/-- Embeds `tea_a_tem` (interes.py lines 5-7): `(1+tea) ** (1/12) - 1`,
Python's float power modelled by `Real.rpow`. -/
noncomputable def tea_a_tem (tea : ℝ) : ℝ := (1 + tea) ^ ((1:ℝ)/12) - 1

/-- Embeds `tem_a_tea` (interes.py lines 9-11): `(1+tem) ** 12 - 1`. -/
def tem_a_tea (tem : ℝ) : ℝ := (1 + tem) ^ (12:ℕ) - 1

/-- Embeds `calcular_cuota_francesa` (amortizacion.py lines 10-28). -/
noncomputable def calcular_cuota_francesa (monto tea : ℝ) (plazo : ℕ) : ℝ :=
  calcular_cuota_francesa_tem monto (tea_a_tem tea) plazo

/-- Embeds `generar_tabla_francesa` (amortizacion.py lines 30-59). -/
noncomputable def generar_tabla_francesa (monto tea : ℝ) (plazo : ℕ) : List (Fila ℝ) :=
  generar_tabla_francesa_tem monto (tea_a_tem tea) plazo

/-- Embeds `generar_tabla_alemana` (amortizacion.py lines 92-127). -/
noncomputable def generar_tabla_alemana (monto tea : ℝ) (plazo : ℕ) : List (Fila ℝ) :=
  generar_tabla_alemana_tem monto (tea_a_tem tea) plazo

/-- A concrete TEA whose monthly equivalent is exactly 1/100, used for
concrete evaluations: `tea_a_tem tea360 = 1/100`. -/
noncomputable def tea360 : ℝ := (101/100 : ℝ)^(12:ℕ) - 1

lemma tea_a_tem_tea360 : tea_a_tem tea360 = 1/100 := by
  unfold tea_a_tem tea360
  have h1 : (1:ℝ) + ((101/100 : ℝ)^(12:ℕ) - 1) = (101/100 : ℝ)^(12:ℕ) := by ring
  rw [h1, ← Real.rpow_natCast (101/100 : ℝ) 12, ← Real.rpow_mul (by norm_num)]
  norm_num

lemma tea360_pos : 0 < tea360 := by
  unfold tea360
  have : (1:ℝ) < (101/100 : ℝ)^(12:ℕ) := by
    apply one_lt_pow₀ (by norm_num) (by norm_num)
  linarith

/-- Round trip of the rate conversions, exact over the reals for any
`tea > -1`. -/
lemma tem_a_tea_tea_a_tem {tea : ℝ} (h : -1 < tea) : tem_a_tea (tea_a_tem tea) = tea := by
  unfold tem_a_tea tea_a_tem
  have h0 : (0:ℝ) ≤ 1 + tea := by linarith
  have h2 : (1:ℝ) + ((1 + tea) ^ ((1:ℝ)/12) - 1) = (1 + tea) ^ ((1:ℝ)/12) := by ring
  rw [h2, ← Real.rpow_natCast ((1 + tea) ^ ((1:ℝ)/12)) 12, ← Real.rpow_mul h0]
  norm_num

/-- For `tea > 0` the monthly rate is positive. -/
lemma tea_a_tem_pos {tea : ℝ} (h : 0 < tea) : 0 < tea_a_tem tea := by
  unfold tea_a_tem
  have h1 : (1:ℝ) < 1 + tea := by linarith
  have := Real.one_lt_rpow_iff_of_pos (x := 1 + tea) (y := (1:ℝ)/12) (by linarith)
  have h2 : (1:ℝ) < (1 + tea) ^ ((1:ℝ)/12) := by
    rw [this]
    exact Or.inl ⟨h1, by norm_num⟩
  linarith

section Casts

lemma pyRoundInt_cast (q : ℚ) : pyRoundInt ((q : ℝ)) = pyRoundInt q := by
  have hf : ⌊(q:ℝ)⌋ = ⌊q⌋ := Rat.floor_cast q
  have hfr : Int.fract ((q:ℝ)) = ((Int.fract q : ℚ) : ℝ) := by
    rw [Int.fract, Int.fract, hf]
    push_cast
    ring
  have hcond : (Int.fract ((q:ℝ)) = 1/2) ↔ (Int.fract q = 1/2) := by
    rw [hfr]
    constructor
    · intro h
      have h2 : ((Int.fract q : ℚ) : ℝ) = (((1:ℚ)/2 : ℚ) : ℝ) := by rw [h]; norm_num
      exact_mod_cast h2
    · intro h
      rw [h]
      norm_num
  unfold pyRoundInt
  rw [hf, Rat.round_cast]
  by_cases hq : Int.fract q = (1/2 : ℚ)
  · rw [if_pos (hcond.mpr hq), if_pos hq]
  · rw [if_neg (fun hc => hq (hcond.mp hc)), if_neg hq]

@[norm_cast]
lemma pyRound2_cast (q : ℚ) : ((pyRound2 q : ℚ) : ℝ) = pyRound2 ((q : ℝ)) := by
  unfold pyRound2
  rw [show ((q:ℝ) * 100) = (((q * 100 : ℚ)):ℝ) by push_cast; ring, pyRoundInt_cast]
  push_cast
  ring

/-- Field-by-field cast of a rational row to a real row. -/
def castFila (f : Fila ℚ) : Fila ℝ :=
  ⟨f.mes, (f.saldo_inicial : ℝ), (f.interes : ℝ), (f.amortizacion : ℝ),
    (f.cuota : ℝ), (f.saldo_final : ℝ)⟩

lemma cuota_francesa_cast (monto tem : ℚ) (n : ℕ) :
    calcular_cuota_francesa_tem ((monto:ℝ)) ((tem:ℝ)) n =
      ((calcular_cuota_francesa_tem monto tem n : ℚ) : ℝ) := by
  unfold calcular_cuota_francesa_tem
  by_cases h : tem = 0
  · rw [if_pos (show (tem:ℝ) = 0 by exact_mod_cast h), if_pos h]
    push_cast
    ring
  · rw [if_neg (fun hc => h (by exact_mod_cast hc)), if_neg h]
    push_cast
    ring

lemma filasFrancesa_cast (tem cuota : ℚ) :
    ∀ (n : ℕ) (s : ℚ) (m : ℤ),
      filasFrancesa ((tem:ℝ)) ((cuota:ℝ)) n ((s:ℝ)) m =
        (filasFrancesa tem cuota n s m).map castFila := by
  intro n
  induction n with
  | zero => intro s m; rfl
  | succ n ih =>
      intro s m
      rw [filasFrancesa, filasFrancesa, List.map_cons]
      rw [show ((s:ℝ) - ((cuota:ℝ) - (s:ℝ) * (tem:ℝ))) = (((s - (cuota - s*tem)) : ℚ) : ℝ) by
        push_cast; ring, ih]
      simp only [castFila]
      congr 1
      push_cast [Rat.cast_max]
      norm_num

lemma filasAlemana_cast (tem af : ℚ) :
    ∀ (n : ℕ) (s : ℚ) (m : ℤ),
      filasAlemana ((tem:ℝ)) ((af:ℝ)) n ((s:ℝ)) m =
        (filasAlemana tem af n s m).map castFila := by
  intro n
  induction n with
  | zero => intro s m; rfl
  | succ n ih =>
      intro s m
      rw [filasAlemana, filasAlemana, List.map_cons]
      rw [show ((s:ℝ) - (af:ℝ)) = (((s - af) : ℚ) : ℝ) by push_cast; ring, ih]
      simp only [castFila]
      congr 1
      push_cast [Rat.cast_max]
      norm_num

lemma generar_tabla_francesa_tea360 (monto : ℚ) (n : ℕ) :
    generar_tabla_francesa ((monto:ℝ)) tea360 n =
      (generar_tabla_francesa_tem monto (1/100 : ℚ) n).map castFila := by
  unfold generar_tabla_francesa generar_tabla_francesa_tem
  rw [tea_a_tem_tea360]
  rw [show ((1:ℝ)/100) = (((1/100 : ℚ)):ℝ) by norm_num]
  rw [cuota_francesa_cast, filasFrancesa_cast]

end Casts

section Simulaciones

variable {α : Type*} [LinearOrderedField α] [FloorRing α]

/-- The `while saldo > 0.01 and mes_relativo <= 360` loop of
`calcular_nuevo_cronograma_frances` (simulaciones.py lines 20-43), used when
a target installment is given (reduce-term policy). `fuel` is the number of
still-allowed iterations (360 at the top call); the installment is threaded
because the source reassigns `cuota` in the final clamped month. The rows
carry no month column in the source; `mes` is set to 0 and reassigned by the
callers. -/
def filasObjetivo (tem : α) : ℕ → α → α → List (Fila α)
  | 0, _, _ => []
  | fuel + 1, saldo, cuota =>
      if 1/100 < saldo then
        if saldo < cuota - saldo * tem then
          ⟨0, pyRound2 saldo, pyRound2 (saldo * tem), pyRound2 saldo,
            pyRound2 (saldo + saldo * tem), pyRound2 (max 0 (saldo - saldo))⟩ ::
          filasObjetivo tem fuel (saldo - saldo) (saldo + saldo * tem)
        else
          ⟨0, pyRound2 saldo, pyRound2 (saldo * tem), pyRound2 (cuota - saldo * tem),
            pyRound2 cuota, pyRound2 (max 0 (saldo - (cuota - saldo * tem)))⟩ ::
          filasObjetivo tem fuel (saldo - (cuota - saldo * tem)) cuota
      else []

/-- The `else` branch of `calcular_nuevo_cronograma_frances` (simulaciones.py
lines 45-59): a plain French schedule over `plazo_rest` months at a fresh
installment (reduce-installment policy). -/
def cronogramaCuotaNueva (principal tem : α) (plazo_rest : ℕ) : List (Fila α) :=
  filasFrancesa tem (calcular_cuota_francesa_tem principal tem plazo_rest)
    plazo_rest principal 1

/-- Embeds `calcular_nuevo_cronograma_frances` (simulaciones.py lines 10-61),
monthly rate passed explicitly. Python's `if cuota_objetivo:` is truthy
exactly when the argument is neither `None` nor `0`. -/
def calcular_nuevo_cronograma_frances_tem (principal tem : α) (plazo_rest : ℕ)
    (cuota_objetivo : Option α) : List (Fila α) :=
  match cuota_objetivo with
  | some c => if c = 0 then cronogramaCuotaNueva principal tem plazo_rest
              else filasObjetivo tem 360 principal c
  | none => cronogramaCuotaNueva principal tem plazo_rest

/-- Overwrite the `saldo_final` cell of the last row
(`parte_anterior.iloc[-1, ...get_loc('saldo_final')] = ...` in
simulaciones.py line 98; the target list is the `.copy()` of the filtered
prefix, so the caller's list is untouched). -/
def setSaldoFinalUltimo : List (Fila α) → α → List (Fila α)
  | [], _ => []
  | [f], v => [⟨f.mes, f.saldo_inicial, f.interes, f.amortizacion, f.cuota, v⟩]
  | f :: g :: t, v => f :: setSaldoFinalUltimo (g :: t) v

/-- Reassign month numbers `d, d+1, ...` to a recomputed tail
(`df_futuro['mes'] = range(mes_pago + 1, ...)`, simulaciones.py line 116). -/
def renumerar : ℤ → List (Fila α) → List (Fila α)
  | _, [] => []
  | d, f :: t =>
      ⟨d, f.saldo_inicial, f.interes, f.amortizacion, f.cuota, f.saldo_final⟩ ::
      renumerar (d + 1) t

/-- The `resumen` dict of `simular_pago_extraordinario`
(simulaciones.py lines 131-142). -/
structure Resumen (α : Type*) where
  interes_original : α
  interes_nuevo : α
  ahorro_intereses : α
  total_pagado_original : α
  total_pagado_nuevo_real : α
  meses_ahorrados : ℤ
  nuevo_plazo : ℕ
deriving DecidableEq

/-- The dict returned by `simular_pago_extraordinario` on success. -/
structure ResultadoSim (α : Type*) where
  tabla_actualizada : List (Fila α)
  resumen : Resumen α
deriving DecidableEq

/-- The `tipo_reduccion` argument ("Cuota" / "Plazo"). -/
inductive TipoReduccion where
  | cuota : TipoReduccion
  | plazo : TipoReduccion
deriving DecidableEq

/-- Embeds `simular_pago_extraordinario` (simulaciones.py lines 63-142),
monthly rate passed explicitly. The result is a pair: first the outcome —
`.error ()` models an uncaught Python exception (`iloc[-1]` on an empty
frame raises `IndexError`), `.ok none` models `return None`, and
`.ok (some r)` a normal result — and second the caller's schedule as it
stands after the call (the source mutates only the `.copy()` of the
filtered prefix, never `tabla_original` itself). -/
def simular_pago_extraordinario_tem (tabla : List (Fila α)) (mes_pago : ℤ)
    (monto_extra tem : α) (tipo : TipoReduccion) :
    Except Unit (Option (ResultadoSim α)) × List (Fila α) :=
  if (tabla.length : ℤ) ≤ mes_pago then (.ok none, tabla)
  else
    let parte := tabla.filter (fun f => f.mes ≤ mes_pago)
    match parte.getLast? with
    | none => (.error (), tabla)
    | some ultimo =>
        let saldo_post := max 0 (ultimo.saldo_final - monto_extra)
        let parte2 := setSaldoFinalUltimo parte saldo_post
        let tabla_nueva :=
          if saldo_post ≤ 0 then parte2
          else
            let plazo_rest : ℕ := tabla.length - mes_pago.toNat
            let cuota_original := (tabla.headD default).cuota
            let futuro :=
              match tipo with
              | .plazo => calcular_nuevo_cronograma_frances_tem saldo_post tem
                  plazo_rest (some cuota_original)
              | .cuota => calcular_nuevo_cronograma_frances_tem saldo_post tem
                  plazo_rest none
            parte2 ++ renumerar (mes_pago + 1) futuro
        let tOld := calcular_totales tabla
        let tNew := calcular_totales tabla_nueva
        (.ok (some ⟨tabla_nueva,
          ⟨tOld.total_intereses, tNew.total_intereses,
            tOld.total_intereses - tNew.total_intereses, tOld.total_pagado,
            tNew.total_pagado + monto_extra,
            (tabla.length : ℤ) - tabla_nueva.length, tabla_nueva.length⟩⟩), tabla)

/-- One row of `simular_pagos_recurrentes` (columns `mes, saldo_inicial,
interes, amortizacion, cuota_base, pago_extra, total_pagado, saldo_final`). -/
structure FilaRec (α : Type*) where
  mes : ℤ
  saldo_inicial : α
  interes : α
  amortizacion : α
  cuota_base : α
  pago_extra : α
  total_pagado : α
  saldo_final : α
deriving DecidableEq

/-- The `while saldo > 0.01 and mes <= 360` loop of
`simular_pagos_recurrentes` (simulaciones.py lines 144-199). -/
def filasRecurrentes (tem cuota_base extra_m : α) (desde : ℤ) :
    ℕ → α → ℤ → List (FilaRec α)
  | 0, _, _ => []
  | fuel + 1, s, mes =>
      if 1/100 < s then
        let interes := s * tem
        let extra := if desde ≤ mes then extra_m else 0
        let pago_total := cuota_base + extra
        if s < pago_total - interes then
          ⟨mes, pyRound2 s, pyRound2 interes, pyRound2 s, pyRound2 cuota_base,
            pyRound2 (if cuota_base < s + interes then extra
              else max 0 (s + interes - cuota_base)),
            pyRound2 (s + interes), pyRound2 (max 0 (s - s))⟩ ::
          filasRecurrentes tem cuota_base extra_m desde fuel (s - s) (mes + 1)
        else
          ⟨mes, pyRound2 s, pyRound2 interes, pyRound2 (pago_total - interes),
            pyRound2 cuota_base,
            pyRound2 (if cuota_base < pago_total then extra
              else max 0 (pago_total - cuota_base)),
            pyRound2 pago_total, pyRound2 (max 0 (s - (pago_total - interes)))⟩ ::
          filasRecurrentes tem cuota_base extra_m desde fuel
            (s - (pago_total - interes)) (mes + 1)
      else []

/-- Embeds `simular_pagos_recurrentes` (simulaciones.py lines 144-199),
monthly rate passed explicitly. -/
def simular_pagos_recurrentes_tem (monto tem : α) (plazo : ℕ) (extra_m : α)
    (desde : ℤ) : List (FilaRec α) :=
  filasRecurrentes tem (calcular_cuota_francesa_tem monto tem plazo) extra_m
    desde 360 monto 1

/-- One row of the periodic-payment helper (columns `mes, interes,
amortizacion, cuota, saldo_final`; this helper stores unrounded values). -/
structure FilaPer (α : Type*) where
  mes : ℤ
  interes : α
  amortizacion : α
  cuota : α
  saldo_final : α
deriving DecidableEq

/-- The loop of the periodic-payment helper (simulaciones.py lines 247-283),
which pays `extra_m` every month divisible by `periodo`. -/
def filasPeriodicos (tem cuota_base extra_m : α) (periodo : ℤ) :
    ℕ → α → ℤ → List (FilaPer α)
  | 0, _, _ => []
  | fuel + 1, s, mes =>
      if 1/100 < s then
        let interes := s * tem
        let extra := if mes % periodo = 0 then extra_m else 0
        let pago_total := cuota_base + extra
        let amort := if s < pago_total - interes then s else pago_total - interes
        ⟨mes, interes, amort, pago_total, s - amort⟩ ::
        filasPeriodicos tem cuota_base extra_m periodo fuel (s - amort) (mes + 1)
      else []

/-- Embeds the helper `_simular_pagos_periodicos` (simulaciones.py lines
247-283; the leading underscore of the source name is dropped), monthly rate
passed explicitly. -/
def simular_pagos_periodicos_tem (monto tem : α) (plazo : ℕ) (extra_m : α)
    (periodo : ℤ) : List (FilaPer α) :=
  filasPeriodicos tem (calcular_cuota_francesa_tem monto tem plazo) extra_m
    periodo 360 monto 1

/-- The `nombre` labels appearing in `comparar_estrategias_prepago`. -/
inductive NombreEstrategia where
  | sinPrepago : NombreEstrategia
  | pagoMensual : NombreEstrategia
  | pagoAnual : NombreEstrategia
deriving DecidableEq

/-- One row of the strategy-comparison result frame. -/
structure Estrategia (α : Type*) where
  nombre : NombreEstrategia
  interes_total : α
  plazo : ℕ
  ahorro : α
deriving DecidableEq

/-- Embeds `comparar_estrategias_prepago` (simulaciones.py lines 201-245),
monthly rate passed explicitly: a no-prepayment baseline, a monthly strategy
(`presupuesto/12` from month 1) and an annual strategy (full `presupuesto`
every 12th month), appended in that fixed order. -/
def comparar_estrategias_prepago_tem (monto tem : α) (plazo : ℕ)
    (presupuesto : α) : List (Estrategia α) :=
  let base := calcular_nuevo_cronograma_frances_tem monto tem plazo none
  let baseTotales := calcular_totales base
  let mensual := simular_pagos_recurrentes_tem monto tem plazo (presupuesto/12) 1
  let interesMensual := (mensual.map FilaRec.interes).sum
  let anual := simular_pagos_periodicos_tem monto tem plazo presupuesto 12
  let interesAnual := (anual.map FilaPer.interes).sum
  [⟨.sinPrepago, baseTotales.total_intereses, base.length, 0⟩,
   ⟨.pagoMensual, interesMensual, mensual.length,
     baseTotales.total_intereses - interesMensual⟩,
   ⟨.pagoAnual, interesAnual, anual.length,
     baseTotales.total_intereses - interesAnual⟩]

end Simulaciones

/-- Embeds `calcular_nuevo_cronograma_frances` (simulaciones.py 10-61). -/
noncomputable def calcular_nuevo_cronograma_frances (principal tea : ℝ)
    (plazo_rest : ℕ) (cuota_objetivo : Option ℝ) : List (Fila ℝ) :=
  calcular_nuevo_cronograma_frances_tem principal (tea_a_tem tea) plazo_rest
    cuota_objetivo

/-- Embeds `simular_pago_extraordinario` (simulaciones.py 63-142). -/
noncomputable def simular_pago_extraordinario (tabla : List (Fila ℝ))
    (mes_pago : ℤ) (monto_extra tea : ℝ) (tipo : TipoReduccion) :
    Except Unit (Option (ResultadoSim ℝ)) × List (Fila ℝ) :=
  simular_pago_extraordinario_tem tabla mes_pago monto_extra (tea_a_tem tea) tipo

/-- Embeds `simular_pagos_recurrentes` (simulaciones.py 144-199). -/
noncomputable def simular_pagos_recurrentes (monto tea : ℝ) (plazo : ℕ)
    (extra_m : ℝ) (desde : ℤ) : List (FilaRec ℝ) :=
  simular_pagos_recurrentes_tem monto (tea_a_tem tea) plazo extra_m desde

/-- Embeds the helper `_simular_pagos_periodicos` (simulaciones.py 247-283). -/
noncomputable def simular_pagos_periodicos (monto tea : ℝ) (plazo : ℕ)
    (extra_m : ℝ) (periodo : ℤ) : List (FilaPer ℝ) :=
  simular_pagos_periodicos_tem monto (tea_a_tem tea) plazo extra_m periodo

/-- Embeds `comparar_estrategias_prepago` (simulaciones.py 201-245). -/
noncomputable def comparar_estrategias_prepago (monto tea : ℝ) (plazo : ℕ)
    (presupuesto : ℝ) : List (Estrategia ℝ) :=
  comparar_estrategias_prepago_tem monto (tea_a_tem tea) plazo presupuesto

instance : Inhabited (Estrategia ℝ) := ⟨⟨.sinPrepago, 0, 0, 0⟩⟩

section Tcea

variable {α : Type*} [LinearOrderedField α] [FloorRing α]

/-- The cash-flow list built by `calcular_tcea_completa` (interes.py lines
64-89): index 0 is minus the net disbursement, then one total outflow per
schedule row, read from the stored (rounded) `cuota` and `saldo_inicial`
columns. Monthly rate passed explicitly. -/
def construir_flujos_tcea_tem (monto tem : α) (plazo : ℕ) (cd cm sd pm : α) :
    List α :=
  (-(monto - monto * cd)) ::
    (generar_tabla_francesa_tem monto tem plazo).map
      (fun f => f.cuota + cm + f.saldo_inicial * sd + pm)

/-- The cash-flow list of `calcular_tcea_completa` at the source level. -/
noncomputable def flujos_tcea (monto tea : ℝ) (plazo : ℕ) (cd cm sd pm : ℝ) :
    List ℝ :=
  construir_flujos_tcea_tem monto (tea_a_tem tea) plazo cd cm sd pm

/-- Net present value of the tail of a cash-flow list whose first element has
month index `i`, at monthly discount rate `r`. -/
noncomputable def npvAux (r : ℝ) : List ℝ → ℕ → ℝ
  | [], _ => 0
  | c :: cs, i => c / (1 + r)^i + npvAux r cs (i + 1)

/-- Net present value of a cash-flow list at monthly rate `r`: the function
whose root `numpy_financial.irr` searches for. -/
noncomputable def npv (flujos : List ℝ) (r : ℝ) : ℝ := npvAux r flujos 0

/-- Specification of a value `numpy_financial.irr` may return for the given
flows: a real root of the net-present-value function with `r > -1`. -/
def es_tir (flujos : List ℝ) (r : ℝ) : Prop := -1 < r ∧ npv flujos r = 0

/-- The flows admit no internal rate of return at all: every admissible rate
has nonzero net present value. On such flows the solver necessarily fails. -/
def sin_tir (flujos : List ℝ) : Prop := ∀ r : ℝ, -1 < r → npv flujos r ≠ 0

/-- Annualization step of `calcular_tcea_completa` (interes.py lines 93-98):
`tcea = (1 + tir_mensual) ** 12 - 1`, returned as a percentage. -/
def anualizar_tir (r : ℝ) : ℝ := ((1 + r)^(12:ℕ) - 1) * 100

/-- A Python float result: either a real value or the IEEE `nan`.
Arithmetic propagates `nan`; every ordered comparison against `nan` is
false. -/
inductive PyFloat where
  | val : ℝ → PyFloat
  | nan : PyFloat

/-- `((1 + tir) ** 12 - 1) * 100` on a Python float (interes.py 93-98):
`nan` propagates through `+`, `**`, `-` and `*` by the IEEE rules. -/
def anualizar_py : PyFloat → PyFloat
  | .val r => .val (anualizar_tir r)
  | .nan => .nan

/-- The possible outcomes of the numeric call `npf.irr(flujos)`: `raiz r`,
a real root `r > -1` of the net-present-value function was found and
returned (constrained through `es_tir` in the theorems); `sinRaiz`, no
admissible root exists and `numpy_financial.irr` returns the float `nan`
WITHOUT raising; `excepcion`, the call itself raised, reaching the bare
`except` of the source. -/
inductive SalidaIrr where
  | raiz : ℝ → SalidaIrr
  | sinRaiz : SalidaIrr
  | excepcion : SalidaIrr

/-- Embeds `calcular_tcea_completa` (interes.py lines 30-102). The numeric
root finder is modelled by the oracle `tir : SalidaIrr`. A found root and
the no-root `nan` both flow through the `try` body and are returned
annualized (`nan` propagating to `nan`); only a raised exception reaches
the bare `except` and produces Python `None`. -/
def calcular_tcea_completa (monto tea : ℝ) (plazo : ℕ) (cd cm sd pm : ℝ)
    (tir : SalidaIrr) : Option PyFloat :=
  match monto, tea, plazo, cd, cm, sd, pm, tir with
  | _, _, _, _, _, _, _, .raiz r => some (anualizar_py (.val r))
  | _, _, _, _, _, _, _, .sinRaiz => some (anualizar_py .nan)
  | _, _, _, _, _, _, _, .excepcion => none

/-- The distinct messages `validar_tcea` can produce (interes.py 183-201),
abstracting the formatted strings. -/
inductive MensajeValidacion where
  | noCalculable : MensajeValidacion
  | menorQueTea : MensajeValidacion
  | muyAlta : MensajeValidacion
  | valida : MensajeValidacion
deriving DecidableEq

/-- Python `tcea < x` on a possibly-`nan` float: false for `nan`. -/
noncomputable def pyLt (t : PyFloat) (x : ℝ) : Bool :=
  match t with
  | .val v => decide (v < x)
  | .nan => false

/-- Python `tcea > x` on a possibly-`nan` float: false for `nan`. -/
noncomputable def pyGt (t : PyFloat) (x : ℝ) : Bool :=
  match t with
  | .val v => decide (x < v)
  | .nan => false

/-- Embeds `validar_tcea` (interes.py lines 183-201). Note that a `nan`
TCEA falls through both comparisons (each is false) and is reported as
valid. -/
noncomputable def validar_tcea (tcea : Option PyFloat) (tea : ℝ) :
    Bool × MensajeValidacion :=
  match tcea with
  | none => (false, .noCalculable)
  | some t =>
      if pyLt t (tea * 100) then (false, .menorQueTea)
      else if pyGt t (tea * 100 * 3) then (false, .muyAlta)
      else (true, .valida)

/-- Polynomial form of the net present value in the variable `u = 1/(1+r)`,
used to get root existence from the intermediate value theorem. -/
def npvPoly {β : Type*} [LinearOrderedField β] (u : β) : List β → ℕ → β
  | [], _ => 0
  | c :: cs, i => c * u^i + npvPoly u cs (i + 1)

end Tcea

section MesLemmas

variable {α : Type*} [LinearOrderedField α] [FloorRing α]

/-- The rows carry consecutive month numbers starting at `m0` (true of every
generated schedule; `simular_pago_extraordinario` slices by the `mes`
column, so its behaviour is stated under this shape). -/
def mesesDesde : ℤ → List (Fila α) → Prop
  | _, [] => True
  | m0, f :: t => f.mes = m0 ∧ mesesDesde (m0 + 1) t

lemma mesesDesde_filasFrancesa (tem cuota : α) :
    ∀ (n : ℕ) (s : α) (m : ℤ), mesesDesde m (filasFrancesa tem cuota n s m) := by
  intro n
  induction n with
  | zero => intro s m; trivial
  | succ n ih => intro s m; exact ⟨rfl, ih _ _⟩

lemma filter_mes_nil :
    ∀ (l : List (Fila α)) (m0 mes : ℤ), mesesDesde m0 l → mes < m0 →
      l.filter (fun f => f.mes ≤ mes) = [] := by
  intro l
  induction l with
  | nil => intro m0 mes h hm; rfl
  | cons f t ih =>
      intro m0 mes h hm
      obtain ⟨hf, ht⟩ := h
      rw [List.filter_cons, if_neg, ih (m0 + 1) mes ht (by omega)]
      simp only [hf, decide_eq_true_eq]
      omega

lemma filter_mes_take :
    ∀ (l : List (Fila α)) (m0 mes : ℤ), mesesDesde m0 l →
      l.filter (fun f => f.mes ≤ mes) = l.take (mes - m0 + 1).toNat := by
  intro l
  induction l with
  | nil => intro m0 mes h; simp
  | cons f t ih =>
      intro m0 mes h
      obtain ⟨hf, ht⟩ := h
      by_cases hc : m0 ≤ mes
      · rw [List.filter_cons, if_pos (by simp only [hf, decide_eq_true_eq]; omega),
          ih (m0 + 1) mes ht]
        rw [show (mes - m0 + 1).toNat = (mes - (m0 + 1) + 1).toNat + 1 by omega]
        rfl
      · rw [List.filter_cons, if_neg (by simp only [hf, decide_eq_true_eq]; omega),
          filter_mes_nil t (m0 + 1) mes ht (by omega)]
        rw [show (mes - m0 + 1).toNat = 0 by omega]
        rfl

end MesLemmas

lemma generar_tabla_francesa_length (monto tea : ℝ) (plazo : ℕ) :
    (generar_tabla_francesa monto tea plazo).length = plazo := by
  unfold generar_tabla_francesa generar_tabla_francesa_tem
  exact filasFrancesa_length _ _ _ _ _

lemma mesesDesde_generar (monto tea : ℝ) (plazo : ℕ) :
    mesesDesde 1 (generar_tabla_francesa monto tea plazo) := by
  unfold generar_tabla_francesa generar_tabla_francesa_tem
  exact mesesDesde_filasFrancesa _ _ _ _ _

section SimularLemmas

variable {α : Type*} [LinearOrderedField α] [FloorRing α]

lemma simular_fuera_de_rango (tabla : List (Fila α)) (mes_pago : ℤ)
    (me tem : α) (tipo : TipoReduccion) (h : (tabla.length : ℤ) ≤ mes_pago) :
    (simular_pago_extraordinario_tem tabla mes_pago me tem tipo).1 = .ok none := by
  unfold simular_pago_extraordinario_tem
  rw [if_pos h]

lemma simular_mes_bajo (tabla : List (Fila α)) (mes_pago : ℤ) (me tem : α)
    (tipo : TipoReduccion) (hwf : mesesDesde 1 tabla) (h0 : mes_pago ≤ 0)
    (hlt : mes_pago < (tabla.length : ℤ)) :
    (simular_pago_extraordinario_tem tabla mes_pago me tem tipo).1 = .error () := by
  unfold simular_pago_extraordinario_tem
  rw [if_neg (by omega)]
  rw [show tabla.filter (fun f => f.mes ≤ mes_pago) = ([] : List (Fila α)) from
    filter_mes_nil tabla 1 mes_pago hwf (by omega)]
  rfl

lemma simular_en_rango (tabla : List (Fila α)) (mes_pago : ℤ) (me tem : α)
    (tipo : TipoReduccion) (hwf : mesesDesde 1 tabla) (h1 : 1 ≤ mes_pago)
    (hlt : mes_pago < (tabla.length : ℤ)) :
    ∃ res, (simular_pago_extraordinario_tem tabla mes_pago me tem tipo).1 =
      .ok (some res) := by
  unfold simular_pago_extraordinario_tem
  rw [if_neg (by omega)]
  have htake := filter_mes_take tabla 1 mes_pago hwf
  have hlen : (tabla.filter (fun f => f.mes ≤ mes_pago)).length = mes_pago.toNat := by
    rw [htake, List.length_take]
    omega
  have hne : tabla.filter (fun f => f.mes ≤ mes_pago) ≠ [] := by
    intro hcon
    rw [hcon] at hlen
    simp only [List.length_nil] at hlen
    omega
  obtain ⟨u, hu⟩ : ∃ u, (tabla.filter (fun f => f.mes ≤ mes_pago)).getLast? = some u := by
    cases hg : (tabla.filter (fun f => f.mes ≤ mes_pago)).getLast? with
    | none => exact absurd (List.getLast?_eq_none_iff.mp hg) hne
    | some u => exact ⟨u, rfl⟩
  simp only [hu]
  exact ⟨_, rfl⟩

lemma simular_snd_eq (tabla : List (Fila α)) (mes_pago : ℤ) (me tem : α)
    (tipo : TipoReduccion) :
    (simular_pago_extraordinario_tem tabla mes_pago me tem tipo).2 = tabla := by
  unfold simular_pago_extraordinario_tem
  split
  · rfl
  · cases hg : (tabla.filter fun f => f.mes ≤ mes_pago).getLast? with
    | none => simp only [hg]
    | some u => simp only [hg]

end SimularLemmas

lemma construir_flujos_cast (monto tem : ℚ) (n : ℕ) (cd cm sd pm : ℚ) :
    construir_flujos_tcea_tem ((monto:ℝ)) ((tem:ℝ)) n ((cd:ℝ)) ((cm:ℝ)) ((sd:ℝ)) ((pm:ℝ)) =
      List.map (fun q : ℚ => (q : ℝ)) (construir_flujos_tcea_tem monto tem n cd cm sd pm) := by
  unfold construir_flujos_tcea_tem generar_tabla_francesa_tem
  rw [cuota_francesa_cast, filasFrancesa_cast, List.map_cons, List.map_map, List.map_map]
  congr 1
  · push_cast
    ring
  · apply List.map_congr_left
    intro f hf
    simp only [Function.comp_apply, castFila]
    push_cast
    ring

section StepLemmas

variable {α : Type*} [LinearOrderedField α] [FloorRing α]

lemma filasFrancesa_nil (tem cuota : α) (s : α) (m : ℤ) :
    filasFrancesa tem cuota 0 s m = [] := rfl

lemma filasFrancesa_step (tem cuota : α) (fuel f : ℕ) (s : α) (m : ℤ)
    (hf : fuel = f + 1) :
    filasFrancesa tem cuota fuel s m =
      ⟨m, pyRound2 s, pyRound2 (s * tem), pyRound2 (cuota - s * tem),
        pyRound2 cuota, pyRound2 (max 0 (s - (cuota - s * tem)))⟩ ::
      filasFrancesa tem cuota f (s - (cuota - s * tem)) (m + 1) := by
  subst hf
  rfl

lemma filasPeriodicos_fin (tem c e : α) (p : ℤ) (fuel f : ℕ) (s : α) (mes : ℤ)
    (hf : fuel = f + 1) (hs : ¬ 1/100 < s) :
    filasPeriodicos tem c e p fuel s mes = [] := by
  subst hf
  rw [filasPeriodicos, if_neg hs]

lemma filasPeriodicos_step (tem c e : α) (p : ℤ) (fuel f : ℕ) (s extra : α) (mes : ℤ)
    (hf : fuel = f + 1)
    (hs : 1/100 < s) (hex : (if mes % p = 0 then e else (0:α)) = extra)
    (hcl : ¬ s < c + extra - s * tem) :
    filasPeriodicos tem c e p fuel s mes =
      ⟨mes, s * tem, c + extra - s * tem, c + extra, s - (c + extra - s * tem)⟩ ::
      filasPeriodicos tem c e p f (s - (c + extra - s * tem)) (mes + 1) := by
  subst hf
  rw [filasPeriodicos, if_pos hs]
  simp only [hex]
  rw [if_neg hcl]

lemma filasPeriodicos_step_clamp (tem c e : α) (p : ℤ) (fuel f : ℕ) (s extra : α)
    (mes : ℤ) (hf : fuel = f + 1)
    (hs : 1/100 < s) (hex : (if mes % p = 0 then e else (0:α)) = extra)
    (hcl : s < c + extra - s * tem) :
    filasPeriodicos tem c e p fuel s mes =
      ⟨mes, s * tem, s, c + extra, s - s⟩ ::
      filasPeriodicos tem c e p f (s - s) (mes + 1) := by
  subst hf
  rw [filasPeriodicos, if_pos hs]
  simp only [hex]
  rw [if_pos hcl]

lemma filasRecurrentes_fin (tem c e : α) (d : ℤ) (fuel f : ℕ) (s : α) (mes : ℤ)
    (hf : fuel = f + 1) (hs : ¬ 1/100 < s) :
    filasRecurrentes tem c e d fuel s mes = [] := by
  subst hf
  rw [filasRecurrentes, if_neg hs]

lemma filasRecurrentes_step (tem c e : α) (d : ℤ) (fuel f : ℕ) (s extra : α) (mes : ℤ)
    (hf : fuel = f + 1)
    (hs : 1/100 < s) (hex : (if d ≤ mes then e else (0:α)) = extra)
    (hcl : ¬ s < c + extra - s * tem) :
    filasRecurrentes tem c e d fuel s mes =
      ⟨mes, pyRound2 s, pyRound2 (s * tem), pyRound2 (c + extra - s * tem),
        pyRound2 c, pyRound2 (if c < c + extra then extra else max 0 (c + extra - c)),
        pyRound2 (c + extra), pyRound2 (max 0 (s - (c + extra - s * tem)))⟩ ::
      filasRecurrentes tem c e d f (s - (c + extra - s * tem)) (mes + 1) := by
  subst hf
  rw [filasRecurrentes, if_pos hs]
  simp only [hex]
  rw [if_neg hcl]

lemma filasRecurrentes_step_clamp (tem c e : α) (d : ℤ) (fuel f : ℕ) (s extra : α)
    (mes : ℤ) (hf : fuel = f + 1)
    (hs : 1/100 < s) (hex : (if d ≤ mes then e else (0:α)) = extra)
    (hcl : s < c + extra - s * tem) :
    filasRecurrentes tem c e d fuel s mes =
      ⟨mes, pyRound2 s, pyRound2 (s * tem), pyRound2 s, pyRound2 c,
        pyRound2 (if c < s + s * tem then extra else max 0 (s + s * tem - c)),
        pyRound2 (s + s * tem), pyRound2 (max 0 (s - s))⟩ ::
      filasRecurrentes tem c e d f (s - s) (mes + 1) := by
  subst hf
  rw [filasRecurrentes, if_pos hs]
  simp only [hex]
  rw [if_pos hcl]

end StepLemmas

section ErrLemmas

variable {α : Type*} [LinearOrderedField α] [FloorRing α]

lemma int_cast_abs_le_one {z : ℤ} (h : |(z:α)| ≤ 3/2) : |(z:α)| ≤ 1 := by
  have hz : |z| ≤ 1 := by
    by_contra hc
    push_neg at hc
    have h2 : (2:ℤ) ≤ |z| := by omega
    have h3 : ((2:ℤ):α) ≤ ((|z|:ℤ):α) := by exact_mod_cast h2
    rw [Int.cast_abs] at h3
    norm_num at h3
    linarith
  calc |(z:α)| = ((|z|:ℤ):α) := by rw [Int.cast_abs]
  _ ≤ 1 := by exact_mod_cast hz

/-- Rounding each of two addends separately differs from rounding the sum by
at most one cent (the difference is an integer number of cents bounded by
1.5 cents). This is the precise sense in which `installment =
interestPortion + principalPortion` survives storage. -/
lemma pyRound2_add_err (x y : α) :
    |pyRound2 (x + y) - (pyRound2 x + pyRound2 y)| ≤ 1/100 := by
  have hA := abs_pyRoundInt_sub ((x + y) * 100)
  have hB := abs_pyRoundInt_sub (x * 100)
  have hC := abs_pyRoundInt_sub (y * 100)
  have hint : |((pyRoundInt ((x+y)*100) - pyRoundInt (x*100) - pyRoundInt (y*100) : ℤ):α)| ≤ 3/2 := by
    push_cast
    rw [abs_le] at hA hB hC ⊢
    constructor <;> nlinarith [hA.1, hA.2, hB.1, hB.2, hC.1, hC.2]
  have hint2 := int_cast_abs_le_one hint
  have heq : pyRound2 (x + y) - (pyRound2 x + pyRound2 y) =
      ((pyRoundInt ((x+y)*100) - pyRoundInt (x*100) - pyRoundInt (y*100) : ℤ):α)/100 := by
    unfold pyRound2
    push_cast
    ring
  rw [heq, abs_div, abs_of_pos (by norm_num : (0:α) < 100)]
  rw [div_le_div_iff₀ (by norm_num : (0:α) < 100) (by norm_num : (0:α) < 100)]
  nlinarith [hint2]

/-- Stored closing balance versus `max 0 (stored opening - stored principal)`:
off by at most one cent when the true remaining balance is nonnegative. -/
lemma pyRound2_max_err (s a : α) (h : 0 ≤ s - a) :
    |pyRound2 (max 0 (s - a)) - max 0 (pyRound2 s - pyRound2 a)| ≤ 1/100 := by
  rw [max_eq_right h]
  have hA := abs_pyRoundInt_sub ((s - a) * 100)
  have hB := abs_pyRoundInt_sub (s * 100)
  have hC := abs_pyRoundInt_sub (a * 100)
  by_cases hc : 0 ≤ pyRound2 s - pyRound2 a
  · rw [max_eq_right hc]
    have hint : |((pyRoundInt ((s-a)*100) - (pyRoundInt (s*100) - pyRoundInt (a*100)) : ℤ):α)| ≤ 3/2 := by
      push_cast
      rw [abs_le] at hA hB hC ⊢
      constructor <;> nlinarith [hA.1, hA.2, hB.1, hB.2, hC.1, hC.2]
    have hint2 := int_cast_abs_le_one hint
    have heq : pyRound2 (s - a) - (pyRound2 s - pyRound2 a) =
        ((pyRoundInt ((s-a)*100) - (pyRoundInt (s*100) - pyRoundInt (a*100)) : ℤ):α)/100 := by
      unfold pyRound2
      push_cast
      ring
    rw [heq, abs_div, abs_of_pos (by norm_num : (0:α) < 100)]
    rw [div_le_div_iff₀ (by norm_num : (0:α) < 100) (by norm_num : (0:α) < 100)]
    nlinarith [hint2]
  · push_neg at hc
    rw [max_eq_left hc.le]
    have hBC : pyRoundInt (s*100) < pyRoundInt (a*100) := by
      unfold pyRound2 at hc
      exact_mod_cast (by linarith [hc] :
        ((pyRoundInt (s*100):ℤ):α) < ((pyRoundInt (a*100):ℤ):α))
    have hBC1 : ((pyRoundInt (s*100):ℤ):α) ≤ ((pyRoundInt (a*100):ℤ):α) - 1 := by
      exact_mod_cast (by omega : (pyRoundInt (s*100):ℤ) ≤ pyRoundInt (a*100) - 1)
    have hsa : s - a = 0 := by
      rw [abs_le] at hA hB hC
      push_cast at hBC1
      have h1 : (s - a) * 100 ≤ 0 := by linarith [hB.1, hB.2, hC.1, hC.2]
      have h2 : s - a ≤ 0 := by linarith
      linarith [h]
    rw [hsa, pyRound2_zero]
    norm_num

end ErrLemmas

section CoherenciaLemmas

variable {α : Type*} [LinearOrderedField α] [FloorRing α]

lemma iterF_succ (tem c : α) : ∀ (k : ℕ) (s : α),
    iterF tem c (k+1) s = iterF tem c k s - (c - iterF tem c k s * tem) := by
  intro k
  induction k with
  | zero => intro s; rfl
  | succ k ih =>
      intro s
      have h1 : iterF tem c (k+1+1) s = iterF tem c (k+1) (s - (c - s*tem)) := rfl
      have h2 : iterF tem c (k+1) s = iterF tem c k (s - (c - s*tem)) := rfl
      rw [h1, ih, h2]

lemma iterA_succ (af : α) (k : ℕ) (s : α) :
    iterA af (k+1) s = iterA af k s - af := by
  rw [iterA_eq, iterA_eq]
  push_cast
  ring

lemma iterA_alemana_nonneg (monto : α) (n : ℕ) (hn : 1 ≤ n) (hm : 0 ≤ monto)
    (k : ℕ) (hk : k ≤ n) :
    0 ≤ iterA (calcular_amortizacion_alemana monto n) k monto := by
  rw [iterA_eq, calcular_amortizacion_alemana]
  have hn0 : (0:α) < n := by exact_mod_cast Nat.pos_of_ne_zero (by omega)
  have hkn : (k:α) ≤ (n:α) := by exact_mod_cast hk
  have h1 : (k:α) * (monto / n) ≤ (n:α) * (monto / n) :=
    mul_le_mul_of_nonneg_right hkn (by positivity)
  have h2 : (n:α) * (monto / n) = monto := by field_simp
  linarith

/-- Per-row invariant on the stored values: the installment matches
interest + principal to one cent, the closing balance is nonnegative, and
the closing balance matches `max 0 (opening - principal)` to one cent. -/
def filaCoherente (f : Fila α) : Prop :=
  |f.cuota - (f.interes + f.amortizacion)| ≤ 1/100 ∧
  0 ≤ f.saldo_final ∧
  |f.saldo_final - max 0 (f.saldo_inicial - f.amortizacion)| ≤ 1/100

/-- Each row's stored opening balance equals the previous row's stored
closing balance. -/
def encadenada (t : List (Fila α)) : Prop :=
  ∀ (i : ℕ) (h : i + 1 < t.length),
    (t.get ⟨i+1, h⟩).saldo_inicial = (t.get ⟨i, by omega⟩).saldo_final

end CoherenciaLemmas

lemma francesa_coherente (monto tea : ℝ) (plazo : ℕ) (hm : 0 < monto)
    (ht : 0 < tea) (hp : 1 ≤ plazo) :
    (∀ f ∈ generar_tabla_francesa monto tea plazo, filaCoherente f) ∧
    encadenada (generar_tabla_francesa monto tea plazo) := by
  have htem := tea_a_tem_pos ht
  unfold generar_tabla_francesa generar_tabla_francesa_tem
  constructor
  · intro f hf
    rw [List.mem_iff_get] at hf
    obtain ⟨⟨i, hi⟩, hget⟩ := hf
    rw [filasFrancesa_get] at hget
    subst hget
    have hi' : i < plazo := by rwa [filasFrancesa_length] at hi
    have hnn1 : 0 ≤ iterF (tea_a_tem tea)
        (calcular_cuota_francesa_tem monto (tea_a_tem tea) plazo) (i+1) monto :=
      iterF_francesa_nonneg monto (tea_a_tem tea) hm.le htem plazo hp (i+1) (by omega)
    refine ⟨?_, pyRound2_nonneg (le_max_left _ _), ?_⟩
    · have h := pyRound2_add_err
        (iterF (tea_a_tem tea) (calcular_cuota_francesa_tem monto (tea_a_tem tea) plazo) i monto * tea_a_tem tea)
        (calcular_cuota_francesa_tem monto (tea_a_tem tea) plazo -
          iterF (tea_a_tem tea) (calcular_cuota_francesa_tem monto (tea_a_tem tea) plazo) i monto * tea_a_tem tea)
      rw [show ∀ x y : ℝ, x + (y - x) = y from fun x y => by ring] at h
      exact h
    · have h := pyRound2_max_err
        (iterF (tea_a_tem tea) (calcular_cuota_francesa_tem monto (tea_a_tem tea) plazo) i monto)
        (calcular_cuota_francesa_tem monto (tea_a_tem tea) plazo -
          iterF (tea_a_tem tea) (calcular_cuota_francesa_tem monto (tea_a_tem tea) plazo) i monto * tea_a_tem tea)
        (by rw [← iterF_succ]; exact hnn1)
      rw [← iterF_succ] at h
      exact h
  · intro i h
    have hlen := filasFrancesa_length (tea_a_tem tea)
      (calcular_cuota_francesa_tem monto (tea_a_tem tea) plazo) plazo monto 1
    rw [filasFrancesa_get, filasFrancesa_get]
    have hnn : 0 ≤ iterF (tea_a_tem tea)
        (calcular_cuota_francesa_tem monto (tea_a_tem tea) plazo) (i+1) monto :=
      iterF_francesa_nonneg monto (tea_a_tem tea) hm.le htem plazo hp (i+1)
        (by rw [hlen] at h; omega)
    show pyRound2 _ = pyRound2 _
    rw [max_eq_right hnn]

lemma alemana_coherente (monto tea : ℝ) (plazo : ℕ) (hm : 0 < monto)
    (hp : 1 ≤ plazo) :
    (∀ f ∈ generar_tabla_alemana monto tea plazo, filaCoherente f) ∧
    encadenada (generar_tabla_alemana monto tea plazo) := by
  unfold generar_tabla_alemana generar_tabla_alemana_tem
  constructor
  · intro f hf
    rw [List.mem_iff_get] at hf
    obtain ⟨⟨i, hi⟩, hget⟩ := hf
    rw [filasAlemana_get] at hget
    subst hget
    have hi' : i < plazo := by rwa [filasAlemana_length] at hi
    have hnn1 : 0 ≤ iterA (calcular_amortizacion_alemana monto plazo) (i+1) monto :=
      iterA_alemana_nonneg monto plazo hp hm.le (i+1) (by omega)
    refine ⟨?_, pyRound2_nonneg (le_max_left _ _), ?_⟩
    · have h := pyRound2_add_err
        (iterA (calcular_amortizacion_alemana monto plazo) i monto * tea_a_tem tea)
        (calcular_amortizacion_alemana monto plazo)
      rw [show iterA (calcular_amortizacion_alemana monto plazo) i monto * tea_a_tem tea +
            calcular_amortizacion_alemana monto plazo =
          calcular_amortizacion_alemana monto plazo +
            iterA (calcular_amortizacion_alemana monto plazo) i monto * tea_a_tem tea by ring] at h
      exact h
    · have h := pyRound2_max_err
        (iterA (calcular_amortizacion_alemana monto plazo) i monto)
        (calcular_amortizacion_alemana monto plazo)
        (by rw [← iterA_succ]; exact hnn1)
      rw [← iterA_succ] at h
      exact h
  · intro i h
    have hlen := filasAlemana_length (tea_a_tem tea)
      (calcular_amortizacion_alemana monto plazo) plazo monto 1
    rw [filasAlemana_get, filasAlemana_get]
    have hnn : 0 ≤ iterA (calcular_amortizacion_alemana monto plazo) (i+1) monto :=
      iterA_alemana_nonneg monto plazo hp hm.le (i+1) (by rw [hlen] at h; omega)
    show pyRound2 _ = pyRound2 _
    rw [max_eq_right hnn]

section SumaLemmas

variable {α : Type*} [LinearOrderedField α] [FloorRing α]

/-- The stored principal portions of a French block differ from the exact
amortized amount `s - iterF n s` (which telescopes) by at most half a cent
per row. -/
lemma filasFrancesa_sum_amort (tem cuota : α) :
    ∀ (n : ℕ) (s : α) (m : ℤ),
      |((filasFrancesa tem cuota n s m).map Fila.amortizacion).sum -
        (s - iterF tem cuota n s)| ≤ (n:α)/200 := by
  intro n
  induction n with
  | zero => intro s m; simp [filasFrancesa, iterF]
  | succ n ih =>
      intro s m
      rw [filasFrancesa_step tem cuota (n+1) n s m rfl]
      simp only [List.map_cons, List.sum_cons]
      have h1 := abs_pyRound2_sub (cuota - s*tem)
      have h2 := ih (s - (cuota - s*tem)) (m+1)
      have h3 : iterF tem cuota (n+1) s = iterF tem cuota n (s - (cuota - s*tem)) := rfl
      rw [h3]
      push_cast
      rw [abs_le] at h1 h2 ⊢
      constructor <;> linarith [h1.1, h1.2, h2.1, h2.2]

lemma getLastD_eq_get {β : Type*} :
    ∀ (l : List β) (d : β) (i : ℕ) (h : i < l.length), i + 1 = l.length →
      l.getLastD d = l.get ⟨i, h⟩ := by
  intro l
  induction l with
  | nil => intro d i h; simp at h
  | cons a t ih =>
      intro d i h hlen
      cases t with
      | nil =>
          have h0 : i = 0 := by simp at hlen; omega
          subst h0
          rfl
      | cons b t2 =>
          have hi : 1 ≤ i := by simp at hlen; omega
          obtain ⟨j, rfl⟩ : ∃ j, i = j + 1 := ⟨i - 1, by omega⟩
          have h2 : j < (b :: t2).length := by simp at h ⊢; omega
          have hlen2 : j + 1 = (b :: t2).length := by simp at hlen ⊢; omega
          rw [List.getLastD_cons]
          rw [ih a j h2 hlen2]
          rfl

end SumaLemmas

lemma tabla_C4_eval :
    generar_tabla_francesa (10001/100) tea360 2 =
      [⟨1, 10001/100, 1, 1244/25, 1269/25, 201/4⟩,
       ⟨2, 201/4, 1/2, 201/4, 1269/25, 0⟩] := by
  unfold generar_tabla_francesa generar_tabla_francesa_tem
  rw [tea_a_tem_tea360]
  rw [show calcular_cuota_francesa_tem ((10001:ℝ)/100) (1/100) 2 = (102020201/2010000 : ℝ) by
    rw [calcular_cuota_francesa_tem, if_neg (by norm_num)]; norm_num]
  rw [filasFrancesa_step ((1:ℝ)/100) (102020201/2010000) 2 1 (10001/100) 1 rfl]
  rw [show ((10001:ℝ)/100 - (102020201/2010000 - 10001/100 * (1/100))) = (1010101/20100 : ℝ) by
    norm_num]
  rw [filasFrancesa_step ((1:ℝ)/100) (102020201/2010000) 1 0 (1010101/20100) (1 + 1) rfl]
  rw [show ((1010101:ℝ)/20100 - (102020201/2010000 - 1010101/20100 * (1/100))) = (0 : ℝ) by
    norm_num]
  rw [filasFrancesa_nil]
  norm_num [Fila.mk.injEq, pyRound2, pyRoundInt, Int.fract, round_eq, max_def, Int.even_iff]

lemma flujos_tcea_cero : flujos_tcea 0 tea360 2 0 0 0 3 = [0, 3, 3] := by
  unfold flujos_tcea construir_flujos_tcea_tem generar_tabla_francesa_tem
  rw [tea_a_tem_tea360]
  rw [show calcular_cuota_francesa_tem (0:ℝ) (1/100) 2 = (0:ℝ) by
    rw [calcular_cuota_francesa_tem, if_neg (by norm_num)]; norm_num]
  rw [filasFrancesa_step ((1:ℝ)/100) 0 2 1 0 1 rfl]
  rw [show ((0:ℝ) - (0 - 0 * (1/100))) = (0:ℝ) by norm_num,
    filasFrancesa_step ((1:ℝ)/100) 0 1 0 0 (1 + 1) rfl]
  rw [show ((0:ℝ) - (0 - 0 * (1/100))) = (0:ℝ) by norm_num, filasFrancesa_nil]
  norm_num [Fila.mk.injEq, pyRound2, pyRoundInt, Int.fract, round_eq, max_def]

set_option maxHeartbeats 1000000 in
lemma tabla_C1_eval :
    generar_tabla_francesa (501/50) tea360 5 =
      [⟨1, 501/50, 1/10, 49/25, 103/50, 403/50⟩,
       ⟨2, 403/50, 2/25, 99/50, 103/50, 607/100⟩,
       ⟨3, 607/100, 3/50, 2, 103/50, 407/100⟩,
       ⟨4, 407/100, 1/25, 101/50, 103/50, 51/25⟩,
       ⟨5, 51/25, 1/50, 51/25, 103/50, 0⟩] := by
  unfold generar_tabla_francesa generar_tabla_francesa_tem
  rw [tea_a_tem_tea360]
  rw [show calcular_cuota_francesa_tem ((501:ℝ)/50) (1/100) 5 =
      (5265560351001/2550502505000 : ℝ) by
    rw [calcular_cuota_francesa_tem, if_neg (by norm_num)]; norm_num]
  rw [filasFrancesa_step ((1:ℝ)/100) (5265560351001/2550502505000) 5 4 (501/50) 1 rfl]
  rw [show ((501:ℝ)/50 - (5265560351001/2550502505000 - 501/50 * (1/100))) =
      (205460351001/25505025050 : ℝ) by norm_num]
  rw [filasFrancesa_step ((1:ℝ)/100) (5265560351001/2550502505000) 4 3
    (205460351001/25505025050) (1+1) rfl]
  rw [show ((205460351001:ℝ)/25505025050 -
      (5265560351001/2550502505000 - 205460351001/25505025050 * (1/100))) =
      (154859351001/25505025050 : ℝ) by norm_num]
  rw [filasFrancesa_step ((1:ℝ)/100) (5265560351001/2550502505000) 3 2
    (154859351001/25505025050) (1+1+1) rfl]
  rw [show ((154859351001:ℝ)/25505025050 -
      (5265560351001/2550502505000 - 154859351001/25505025050 * (1/100))) =
      (103752341001/25505025050 : ℝ) by norm_num]
  rw [filasFrancesa_step ((1:ℝ)/100) (5265560351001/2550502505000) 2 1
    (103752341001/25505025050) (1+1+1+1) rfl]
  rw [show ((103752341001:ℝ)/25505025050 -
      (5265560351001/2550502505000 - 103752341001/25505025050 * (1/100))) =
      (52134260901/25505025050 : ℝ) by norm_num]
  rw [filasFrancesa_step ((1:ℝ)/100) (5265560351001/2550502505000) 1 0
    (52134260901/25505025050) (1+1+1+1+1) rfl]
  rw [show ((52134260901:ℝ)/25505025050 -
      (5265560351001/2550502505000 - 52134260901/25505025050 * (1/100))) =
      (0 : ℝ) by norm_num]
  rw [filasFrancesa_nil]
  norm_num [Fila.mk.injEq, pyRound2, pyRoundInt, Int.fract, round_eq, max_def,
    Int.even_iff]

section NpvLemmas

lemma term_strictAntiOn (x : ℝ) (hx : 0 < x) (i : ℕ) (hi : 1 ≤ i) :
    StrictAntiOn (fun r : ℝ => x / (1+r)^i) (Set.Ioi (-1)) := by
  intro a ha b hb hab
  have ha' : (0:ℝ) < 1 + a := by have := Set.mem_Ioi.mp ha; linarith
  have hb' : (0:ℝ) < 1 + b := by have := Set.mem_Ioi.mp hb; linarith
  have hpow : (1+a)^i < (1+b)^i := pow_lt_pow_left₀ (by linarith) (by linarith) (by omega)
  exact div_lt_div_of_pos_left hx (by positivity) hpow

lemma npvAux_strictAntiOn :
    ∀ (l : List ℝ), l ≠ [] → (∀ x ∈ l, 0 < x) → ∀ (i : ℕ), 1 ≤ i →
      StrictAntiOn (fun r => npvAux r l i) (Set.Ioi (-1)) := by
  intro l
  induction l with
  | nil => intro h; exact absurd rfl h
  | cons x t ih =>
      intro _ hpos i hi
      cases t with
      | nil =>
          intro a ha b hb hab
          have h2 := term_strictAntiOn x (hpos x (by simp)) i hi ha hb hab
          simp only [npvAux] at *
          linarith
      | cons y t2 =>
          intro a ha b hb hab
          have h1 := term_strictAntiOn x (hpos x (by simp)) i hi ha hb hab
          have h2 := ih (by simp) (fun z hz => hpos z (List.mem_cons_of_mem _ hz))
            (i+1) (by omega) ha hb hab
          simp only [npvAux] at *
          linarith

lemma npv_strictAntiOn (f0 : ℝ) (rest : List ℝ) (hne : rest ≠ [])
    (hpos : ∀ x ∈ rest, 0 < x) :
    StrictAntiOn (npv (f0 :: rest)) (Set.Ioi (-1)) := by
  intro a ha b hb hab
  have h := npvAux_strictAntiOn rest hne hpos 1 le_rfl ha hb hab
  simp only [npv, npvAux, pow_zero] at *
  linarith

lemma raiz_mayor (f0 : ℝ) (rest : List ℝ) (hne : rest ≠ [])
    (hpos : ∀ x ∈ rest, 0 < x) (tem r : ℝ) (htem : -1 < tem) (hr : -1 < r)
    (hpv : 0 < npv (f0 :: rest) tem) (hroot : npv (f0 :: rest) r = 0) :
    tem < r := by
  by_contra hc
  push_neg at hc
  rcases eq_or_lt_of_le hc with heq | hlt
  · rw [← heq] at hpv
    linarith [hpv, hroot.le, hroot.ge]
  · have h := npv_strictAntiOn f0 rest hne hpos (Set.mem_Ioi.mpr hr)
      (Set.mem_Ioi.mpr htem) hlt
    rw [hroot] at h
    linarith

lemma npvAux_le (r : ℝ) (hr : 0 < 1 + r) :
    ∀ {a b : List ℝ}, List.Forall₂ (· ≤ ·) a b → ∀ (i : ℕ),
      npvAux r a i ≤ npvAux r b i := by
  intro a b hab
  induction hab with
  | nil => intro i; exact le_rfl
  | @cons x y ta tb hxy hrest ih =>
      intro i
      simp only [npvAux]
      have h1 : x/(1+r)^i ≤ y/(1+r)^i := by gcongr
      have h2 := ih (i+1)
      linarith

lemma npvAux_replicate (r c : ℝ) (hr : (1:ℝ) + r ≠ 0) (hr0 : r ≠ 0) :
    ∀ (n i : ℕ), npvAux r (List.replicate n c) i =
      c * (1+r) * ((1/(1+r))^i - (1/(1+r))^(i+n)) / r := by
  intro n
  induction n with
  | zero =>
      intro i
      simp [npvAux]
  | succ n ih =>
      intro i
      rw [List.replicate_succ]
      simp only [npvAux]
      rw [ih (i+1)]
      have hpow : ∀ m : ℕ, ((1:ℝ)/(1+r))^m = 1/(1+r)^m := by
        intro m
        rw [div_pow]
        norm_num
      rw [show i + 1 + n = i + (n+1) by omega]
      rw [hpow, hpow, hpow]
      have hc : (1+r)^i ≠ 0 := pow_ne_zero _ hr
      have hc2 : (1+r)^(i+(n+1)) ≠ 0 := pow_ne_zero _ hr
      field_simp
      ring

lemma npvAux_cuota_francesa (monto tem : ℝ) (htem : 0 < tem) (n : ℕ) (hn : 1 ≤ n) :
    npvAux tem (List.replicate n (calcular_cuota_francesa_tem monto tem n)) 1 =
      monto := by
  rw [npvAux_replicate tem _ (by linarith) (ne_of_gt htem)]
  rw [calcular_cuota_francesa_tem, if_neg (ne_of_gt htem)]
  have hq : (0:ℝ) < 1 + tem := by linarith
  have hqn : (0:ℝ) < (1+tem)^n := by positivity
  have hd := annuity_denom_pos (α := ℝ) htem hn
  have hpow : ∀ m : ℕ, ((1:ℝ)/(1+tem))^m = 1/(1+tem)^m := by
    intro m
    rw [div_pow]
    norm_num
  rw [hpow, hpow]
  rw [show (1:ℕ) + n = n + 1 by omega, pow_succ]
  field_simp
  ring

lemma npvAux_eq_npvPoly (r u : ℝ) (hu : u ≠ 0) (hru : 1 + r = 1/u) :
    ∀ (l : List ℝ) (i : ℕ), npvAux r l i = npvPoly u l i := by
  intro l
  induction l with
  | nil => intro i; rfl
  | cons c t ih =>
      intro i
      simp only [npvAux, npvPoly]
      rw [ih (i+1), hru]
      congr 1
      have h1 : ((1:ℝ)/u)^i = 1/u^i := by rw [div_pow]; norm_num
      rw [h1]
      have h2 : (u:ℝ)^i ≠ 0 := pow_ne_zero _ hu
      field_simp

end NpvLemmas

lemma cargos_forall2 (monto tem : ℝ) (plazo : ℕ) (cm sd pm : ℝ)
    (hm : 0 < monto) (htem : 0 < tem) (hp : 1 ≤ plazo)
    (hsd : 0 ≤ sd) (hfee : 1/200 ≤ cm + pm) :
    List.Forall₂ (· ≤ ·)
      (List.replicate plazo (calcular_cuota_francesa_tem monto tem plazo))
      ((generar_tabla_francesa_tem monto tem plazo).map
        (fun f => f.cuota + cm + f.saldo_inicial * sd + pm)) := by
  rw [List.forall₂_iff_get]
  refine ⟨by simp [generar_tabla_francesa_tem, filasFrancesa_length], ?_⟩
  intro i h1 h2
  have hip : i < plazo := by simpa using h1
  rw [List.get_replicate, List.get_map]
  unfold generar_tabla_francesa_tem
  rw [filasFrancesa_get]
  have hr1 := le_pyRound2 (calcular_cuota_francesa_tem monto tem plazo)
  have hr2 : 0 ≤ pyRound2 (iterF tem (calcular_cuota_francesa_tem monto tem plazo) i monto) * sd :=
    mul_nonneg (pyRound2_nonneg
      (iterF_francesa_nonneg monto tem hm.le htem plazo hp i (by omega))) hsd
  show calcular_cuota_francesa_tem monto tem plazo ≤ _
  simp only
  linarith

lemma cargos_pos (monto tem : ℝ) (plazo : ℕ) (cm sd pm : ℝ)
    (hm : 0 < monto) (htem : 0 < tem) (hp : 1 ≤ plazo)
    (hsd : 0 ≤ sd) (hfee : 1/200 ≤ cm + pm) :
    ∀ x ∈ (generar_tabla_francesa_tem monto tem plazo).map
      (fun f => f.cuota + cm + f.saldo_inicial * sd + pm), 0 < x := by
  intro x hx
  rw [List.mem_map] at hx
  obtain ⟨f, hf, rfl⟩ := hx
  unfold generar_tabla_francesa_tem at hf
  rw [List.mem_iff_get] at hf
  obtain ⟨⟨i, hi⟩, rfl⟩ := hf
  rw [filasFrancesa_get]
  have hip : i < plazo := by rwa [filasFrancesa_length] at hi
  have hcuota := cuota_francesa_pos monto tem hm htem plazo hp
  have hr1 := le_pyRound2 (calcular_cuota_francesa_tem monto tem plazo)
  have hr2 : 0 ≤ pyRound2 (iterF tem (calcular_cuota_francesa_tem monto tem plazo) i monto) * sd :=
    mul_nonneg (pyRound2_nonneg
      (iterF_francesa_nonneg monto tem hm.le htem plazo hp i (by omega))) hsd
  simp only
  linarith

lemma tabla_C7_base :
    calcular_nuevo_cronograma_frances_tem (200:ℝ) (1/100) 2 none =
      [⟨1, 200, 2, 199/2, 203/2, 201/2⟩, ⟨2, 201/2, 1, 201/2, 203/2, 0⟩] := by
  unfold calcular_nuevo_cronograma_frances_tem cronogramaCuotaNueva
  rw [show calcular_cuota_francesa_tem ((200:ℝ)) (1/100) 2 = (20402/201 : ℝ) by
    rw [calcular_cuota_francesa_tem, if_neg (by norm_num)]; norm_num]
  rw [filasFrancesa_step ((1:ℝ)/100) (20402/201) 2 1 200 1 rfl]
  rw [show ((200:ℝ) - (20402/201 - 200 * (1/100))) = (20200/201 : ℝ) by norm_num]
  rw [filasFrancesa_step ((1:ℝ)/100) (20402/201) 1 0 (20200/201) (1+1) rfl]
  rw [show ((20200:ℝ)/201 - (20402/201 - 20200/201 * (1/100))) = (0 : ℝ) by norm_num]
  rw [filasFrancesa_nil]
  norm_num [Fila.mk.injEq, pyRound2, pyRoundInt, Int.fract, round_eq, max_def,
    Int.even_iff]

lemma tabla_C7_mensual :
    simular_pagos_recurrentes_tem (200:ℝ) (1/100) 2 2 1 =
      [⟨1, 200, 2, 203/2, 203/2, 2, 207/2, 197/2⟩,
       ⟨2, 197/2, 49/50, 197/2, 203/2, 0, 2487/25, 0⟩] := by
  unfold simular_pagos_recurrentes_tem
  rw [show calcular_cuota_francesa_tem ((200:ℝ)) (1/100) 2 = (20402/201 : ℝ) by
    rw [calcular_cuota_francesa_tem, if_neg (by norm_num)]; norm_num]
  rw [filasRecurrentes_step ((1:ℝ)/100) (20402/201) 2 1 360 359 200 2 1 rfl
    (by norm_num) (by norm_num) (by norm_num)]
  rw [show ((200:ℝ) - (20402/201 + 2 - 200 * (1/100))) = (19798/201 : ℝ) by norm_num]
  rw [filasRecurrentes_step_clamp ((1:ℝ)/100) (20402/201) 2 1 359 358 (19798/201) 2
    (1+1) rfl (by norm_num) (by norm_num) (by norm_num)]
  rw [show ((19798:ℝ)/201 - 19798/201) = (0:ℝ) by norm_num]
  rw [filasRecurrentes_fin ((1:ℝ)/100) (20402/201) 2 1 358 357 0 (1+1+1) rfl
    (by norm_num)]
  norm_num [FilaRec.mk.injEq, pyRound2, pyRoundInt, Int.fract, round_eq, max_def,
    Int.even_iff]

lemma tabla_C7_anual :
    simular_pagos_periodicos_tem (200:ℝ) (1/100) 2 24 12 =
      [⟨1, 2, 20000/201, 20402/201, 20200/201⟩,
       ⟨2, 202/201, 20200/201, 20402/201, 0⟩] := by
  unfold simular_pagos_periodicos_tem
  rw [show calcular_cuota_francesa_tem ((200:ℝ)) (1/100) 2 = (20402/201 : ℝ) by
    rw [calcular_cuota_francesa_tem, if_neg (by norm_num)]; norm_num]
  rw [filasPeriodicos_step ((1:ℝ)/100) (20402/201) 24 12 360 359 200 0 1 rfl
    (by norm_num) (by norm_num) (by norm_num)]
  rw [show ((200:ℝ) - (20402/201 + 0 - 200 * (1/100))) = (20200/201 : ℝ) by norm_num]
  rw [filasPeriodicos_step ((1:ℝ)/100) (20402/201) 24 12 359 358 (20200/201) 0
    (1+1) rfl (by norm_num) (by norm_num) (by norm_num)]
  rw [show ((20200:ℝ)/201 - (20402/201 + 0 - 20200/201 * (1/100))) = (0 : ℝ) by
    norm_num]
  rw [filasPeriodicos_fin ((1:ℝ)/100) (20402/201) 24 12 358 357 0 (1+1+1) rfl
    (by norm_num)]
  norm_num [FilaPer.mk.injEq]

lemma comparar_C7_eval :
    comparar_estrategias_prepago 200 tea360 2 24 =
      [⟨.sinPrepago, 3, 2, 0⟩, ⟨.pagoMensual, 149/50, 2, 1/50⟩,
       ⟨.pagoAnual, 604/201, 2, -(1/201)⟩] := by
  unfold comparar_estrategias_prepago comparar_estrategias_prepago_tem
  rw [tea_a_tem_tea360]
  rw [show (24:ℝ)/12 = 2 by norm_num]
  rw [tabla_C7_base, tabla_C7_mensual, tabla_C7_anual]
  norm_num [calcular_totales, Estrategia.mk.injEq]

/- ============================ CLAIMS ============================ -/

/-- C1 (amended): for positive principal, rate and term the French schedule
has length exactly `plazo`, every row stores the same rounded installment,
and the final stored closing balance is exactly 0; the stored principal
portions sum to the principal only within half a cent per row
(`plazo/200`), not within 0.01 for every input. -/
theorem C1_tabla_francesa (monto tea : ℝ) (plazo : ℕ)
    (hm : 0 < monto) (ht : 0 < tea) (hp : 1 ≤ plazo) :
    (generar_tabla_francesa monto tea plazo).length = plazo ∧
    (∀ f ∈ generar_tabla_francesa monto tea plazo,
      f.cuota = pyRound2 (calcular_cuota_francesa monto tea plazo)) ∧
    ((generar_tabla_francesa monto tea plazo).getLastD default).saldo_final = 0 ∧
    |((generar_tabla_francesa monto tea plazo).map Fila.amortizacion).sum - monto| ≤
      (plazo : ℝ)/200 := by
  have htem := tea_a_tem_pos ht
  unfold generar_tabla_francesa generar_tabla_francesa_tem calcular_cuota_francesa
  have hlen := filasFrancesa_length (tea_a_tem tea)
    (calcular_cuota_francesa_tem monto (tea_a_tem tea) plazo) plazo monto 1
  refine ⟨hlen, ?_, ?_, ?_⟩
  · intro f hf
    rw [List.mem_iff_get] at hf
    obtain ⟨⟨i, hi⟩, hget⟩ := hf
    rw [filasFrancesa_get] at hget
    subst hget
    rfl
  · rw [getLastD_eq_get _ _ (plazo - 1) (by rw [hlen]; omega) (by rw [hlen]; omega)]
    rw [filasFrancesa_get]
    show pyRound2 (max 0 _) = 0
    rw [show plazo - 1 + 1 = plazo by omega,
      iterF_francesa_final monto (tea_a_tem tea) htem plazo hp]
    rw [max_eq_right le_rfl]
    exact pyRound2_zero
  · have h := filasFrancesa_sum_amort (tea_a_tem tea)
      (calcular_cuota_francesa_tem monto (tea_a_tem tea) plazo) plazo monto 1
    rw [iterF_francesa_final monto (tea_a_tem tea) htem plazo hp] at h
    simpa using h

theorem C1_tabla_francesa_witness :
    (0:ℝ) < 100 ∧ (0:ℝ) < tea360 ∧ (1:ℕ) ≤ 12 ∧
    ((generar_tabla_francesa 100 tea360 12).length = 12 ∧
     (∀ f ∈ generar_tabla_francesa 100 tea360 12,
       f.cuota = pyRound2 (calcular_cuota_francesa 100 tea360 12)) ∧
     ((generar_tabla_francesa 100 tea360 12).getLastD default).saldo_final = 0 ∧
     |((generar_tabla_francesa 100 tea360 12).map Fila.amortizacion).sum - 100| ≤
       (12 : ℝ)/200) :=
  ⟨by norm_num, tea360_pos, by norm_num,
    C1_tabla_francesa 100 tea360 12 (by norm_num) tea360_pos (by norm_num)⟩

/-- C1 counterexample: at principal 10.02, TEA with exact monthly rate 1%,
term 5, the stored principal portions sum to 10.04: the drift from the
principal is 0.02, exceeding the claimed 0.01 tolerance. -/
theorem C1_cx_suma_amortizaciones :
    1/100 < |((generar_tabla_francesa (501/50) tea360 5).map Fila.amortizacion).sum -
      (501/50 : ℝ)| := by
  rw [tabla_C1_eval]
  have habs : ∀ x : ℝ, x = -(1/50) → 1/100 < |x| := by
    intro x hx
    rw [hx, abs_neg, abs_of_pos (by norm_num : (0:ℝ) < 1/50)]
    norm_num
  apply habs
  simp only [List.map_cons, List.map_nil, List.sum_cons, List.sum_nil]
  norm_num

/-- C4 (amended): on the stored values of every French or German schedule
row (positive principal/rate, term ≥ 1): the installment equals interest +
principal only to within one cent; the closing balance is never negative
and matches `max 0 (opening - principal)` to within one cent; consecutive
rows chain exactly (`opening = previous closing`). The exact (unrounded)
identities hold pre-storage, but not on the stored cells. -/
theorem C4_invariantes_redondeo (monto tea : ℝ) (plazo : ℕ)
    (hm : 0 < monto) (ht : 0 < tea) (hp : 1 ≤ plazo) :
    ((∀ f ∈ generar_tabla_francesa monto tea plazo, filaCoherente f) ∧
      encadenada (generar_tabla_francesa monto tea plazo)) ∧
    ((∀ f ∈ generar_tabla_alemana monto tea plazo, filaCoherente f) ∧
      encadenada (generar_tabla_alemana monto tea plazo)) :=
  ⟨francesa_coherente monto tea plazo hm ht hp,
   alemana_coherente monto tea plazo hm hp⟩

theorem C4_invariantes_redondeo_witness :
    (0:ℝ) < 100 ∧ (0:ℝ) < tea360 ∧ (1:ℕ) ≤ 2 ∧
    (((∀ f ∈ generar_tabla_francesa 100 tea360 2, filaCoherente f) ∧
       encadenada (generar_tabla_francesa 100 tea360 2)) ∧
     ((∀ f ∈ generar_tabla_alemana 100 tea360 2, filaCoherente f) ∧
       encadenada (generar_tabla_alemana 100 tea360 2))) :=
  ⟨by norm_num, tea360_pos, by norm_num,
    C4_invariantes_redondeo 100 tea360 2 (by norm_num) tea360_pos (by norm_num)⟩

theorem C6_helper_trunca {α : Type*} [LinearOrderedField α] [FloorRing α]
    (tem cuota : α) (htem : 0 < tem) :
    ∀ (fuel : ℕ) (s : α), 1/100 < s → cuota ≤ s * tem →
      (filasObjetivo tem fuel s cuota).length = fuel ∧
      ∀ f ∈ filasObjetivo tem fuel s cuota, s - 1/200 ≤ f.saldo_final := by
  intro fuel
  induction fuel with
  | zero =>
      intro s hs hc
      exact ⟨rfl, by intro f hf; simp [filasObjetivo] at hf⟩
  | succ n ih =>
      intro s hs hc
      have hs0 : (0:α) < s := lt_trans (by norm_num) hs
      have hcl : ¬ (s < cuota - s * tem) := by nlinarith
      have hs' : s ≤ s - (cuota - s * tem) := by nlinarith
      have h1 : 1/100 < s - (cuota - s * tem) := lt_of_lt_of_le hs hs'
      have h2 : cuota ≤ (s - (cuota - s * tem)) * tem := by nlinarith
      obtain ⟨ihl, ihm⟩ := ih (s - (cuota - s * tem)) h1 h2
      rw [filasObjetivo, if_pos hs, if_neg hcl]
      constructor
      · simp [ihl]
      · intro f hf
        rcases List.mem_cons.mp hf with hhd | htl
        · subst hhd
          show s - 1/200 ≤ pyRound2 (max 0 (s - (cuota - s * tem)))
          have hmax : max 0 (s - (cuota - s * tem)) = s - (cuota - s * tem) :=
            max_eq_right (by linarith)
          rw [hmax]
          have := le_pyRound2 (s - (cuota - s * tem))
          linarith
        · have := ihm f htl
          linarith

/-- C6 (amended): under the reduce-term policy the recomputation amortizes
the post-prepayment balance at the fixed installment with iteration capped
at 360 months; but when the installment never covers the interest
(installment ≤ balance × monthly rate) it does NOT fail: it returns the
360-row truncated schedule, every row of which still carries essentially the
whole balance. No `NonConvergentAmortization` error exists in the code. -/
theorem C6_trunca_sin_error (principal tea : ℝ) (plazo_rest : ℕ) (cuota : ℝ)
    (h1 : 0 < tea_a_tem tea) (h2 : 1/100 < principal) (h3 : cuota ≠ 0)
    (h4 : cuota ≤ principal * tea_a_tem tea) :
    (calcular_nuevo_cronograma_frances principal tea plazo_rest (some cuota)).length =
      360 ∧
    ∀ f ∈ calcular_nuevo_cronograma_frances principal tea plazo_rest (some cuota),
      principal - 1/200 ≤ f.saldo_final := by
  unfold calcular_nuevo_cronograma_frances calcular_nuevo_cronograma_frances_tem
  dsimp only
  rw [if_neg h3]
  exact C6_helper_trunca (tea_a_tem tea) cuota h1 360 principal h2 h4

theorem C6_trunca_sin_error_witness :
    (0:ℝ) < tea_a_tem tea360 ∧ (1:ℝ)/100 < 1000 ∧ (5:ℝ) ≠ 0 ∧
    (5:ℝ) ≤ 1000 * tea_a_tem tea360 ∧
    ((calcular_nuevo_cronograma_frances 1000 tea360 12 (some 5)).length = 360 ∧
     ∀ f ∈ calcular_nuevo_cronograma_frances 1000 tea360 12 (some 5),
       (1000:ℝ) - 1/200 ≤ f.saldo_final) :=
  ⟨by rw [tea_a_tem_tea360]; norm_num, by norm_num, by norm_num,
    by rw [tea_a_tem_tea360]; norm_num,
    C6_trunca_sin_error 1000 tea360 12 5 (by rw [tea_a_tem_tea360]; norm_num)
      (by norm_num) (by norm_num) (by rw [tea_a_tem_tea360]; norm_num)⟩

/-- C6 counterexample: with balance 1000, monthly rate exactly 1% and fixed
installment 5 (≤ the 10 of monthly interest), the reduce-term recomputation
returns a truncated 360-row schedule whose last row still holds over 999 of
balance — it does not fail with any `NonConvergentAmortization` error. -/
theorem C6_cx_no_falla :
    (calcular_nuevo_cronograma_frances 1000 tea360 12 (some 5)).length = 360 ∧
    999 < ((calcular_nuevo_cronograma_frances 1000 tea360 12
      (some 5)).getLastD default).saldo_final := by
  have h := C6_helper_trunca (tea_a_tem tea360) (5:ℝ)
    (by rw [tea_a_tem_tea360]; norm_num) 360 1000 (by norm_num)
    (by rw [tea_a_tem_tea360]; norm_num)
  have heq : calcular_nuevo_cronograma_frances 1000 tea360 12 (some 5) =
      filasObjetivo (tea_a_tem tea360) 360 1000 5 := by
    unfold calcular_nuevo_cronograma_frances calcular_nuevo_cronograma_frances_tem
    dsimp only
    rw [if_neg (by norm_num : (5:ℝ) ≠ 0)]
  rw [heq]
  obtain ⟨hlen, hmem⟩ := h
  refine ⟨hlen, ?_⟩
  have hne : filasObjetivo (tea_a_tem tea360) 360 1000 (5:ℝ) ≠ [] := by
    intro hcon
    rw [hcon] at hlen
    simp at hlen
  have hmemL : (filasObjetivo (tea_a_tem tea360) 360 1000 (5:ℝ)).getLastD default ∈
      filasObjetivo (tea_a_tem tea360) 360 1000 (5:ℝ) := by
    cases hc : filasObjetivo (tea_a_tem tea360) 360 1000 (5:ℝ) with
    | nil => exact absurd hc hne
    | cons a t =>
        rw [List.getLastD_cons]
        exact List.getLastD_mem_cons t a
  have := hmem _ hmemL
  linarith

lemma flujos_C2_cx_eval :
    flujos_tcea 100 tea360 2 0 0 0 0 = [-100, 203/4, 203/4] := by
  unfold flujos_tcea construir_flujos_tcea_tem generar_tabla_francesa_tem
  rw [tea_a_tem_tea360]
  rw [show calcular_cuota_francesa_tem ((100:ℝ)) (1/100) 2 = (10201/201 : ℝ) by
    rw [calcular_cuota_francesa_tem, if_neg (by norm_num)]; norm_num]
  rw [filasFrancesa_step ((1:ℝ)/100) (10201/201) 2 1 100 1 rfl]
  rw [show ((100:ℝ) - (10201/201 - 100 * (1/100))) = (10100/201 : ℝ) by norm_num]
  rw [filasFrancesa_step ((1:ℝ)/100) (10201/201) 1 0 (10100/201) (1+1) rfl]
  rw [show ((10100:ℝ)/201 - (10201/201 - 10100/201 * (1/100))) = (0 : ℝ) by norm_num]
  rw [filasFrancesa_nil]
  norm_num [pyRound2, pyRoundInt, Int.fract, round_eq, max_def, Int.even_iff]

lemma flujos_C2_wit_eval :
    flujos_tcea 100 tea360 1 (1/2) (1/100) 0 0 = [-50, 10101/100] := by
  unfold flujos_tcea construir_flujos_tcea_tem generar_tabla_francesa_tem
  rw [tea_a_tem_tea360]
  rw [show calcular_cuota_francesa_tem ((100:ℝ)) (1/100) 1 = (101 : ℝ) by
    rw [calcular_cuota_francesa_tem, if_neg (by norm_num)]; norm_num]
  rw [filasFrancesa_step ((1:ℝ)/100) 101 1 0 100 1 rfl]
  rw [show ((100:ℝ) - (101 - 100 * (1/100))) = (0 : ℝ) by norm_num]
  rw [filasFrancesa_nil]
  norm_num [pyRound2, pyRoundInt, Int.fract, round_eq, max_def, Int.even_iff]

/-- C7 (amended): `comparar_estrategias_prepago` returns exactly three
entries in the fixed order [no-prepayment baseline, monthly `budget/12`
from month 1, full budget every 12th month]: there is no semiannual
(`budget/2` every 6 months) strategy at all, and the list is not sorted by
total interest — the baseline always comes first. The interes and savings
fields are the corresponding simulation sums. -/
theorem C7_tres_estrategias_sin_ordenar (monto tea : ℝ) (plazo : ℕ)
    (presupuesto : ℝ) :
    (comparar_estrategias_prepago monto tea plazo presupuesto).map
      Estrategia.nombre = [.sinPrepago, .pagoMensual, .pagoAnual] ∧
    (comparar_estrategias_prepago monto tea plazo presupuesto).length = 3 ∧
    ((comparar_estrategias_prepago monto tea plazo presupuesto).getD 0
      default).interes_total =
      (calcular_totales (calcular_nuevo_cronograma_frances monto tea plazo
        none)).total_intereses ∧
    ((comparar_estrategias_prepago monto tea plazo presupuesto).getD 0
      default).ahorro = 0 ∧
    ((comparar_estrategias_prepago monto tea plazo presupuesto).getD 1
      default).interes_total =
      ((simular_pagos_recurrentes monto tea plazo (presupuesto/12) 1).map
        FilaRec.interes).sum ∧
    ((comparar_estrategias_prepago monto tea plazo presupuesto).getD 2
      default).interes_total =
      ((simular_pagos_periodicos monto tea plazo presupuesto 12).map
        FilaPer.interes).sum :=
  ⟨rfl, rfl, rfl, rfl, rfl, rfl⟩

/-- C7 counterexample: at principal 200, monthly rate exactly 1%, term 2,
annual budget 24, the returned strategies are
[baseline, monthly, annual] — no semiannual `budget/2`-every-6-months
strategy exists — and the list is not ranked by total interest ascending:
the first entry (3) has strictly more interest than the second (2.98). -/
theorem C7_cx_sin_semestral_ni_orden :
    (comparar_estrategias_prepago 200 tea360 2 24).map Estrategia.nombre =
      [.sinPrepago, .pagoMensual, .pagoAnual] ∧
    ((comparar_estrategias_prepago 200 tea360 2 24).getD 1 default).interes_total <
      ((comparar_estrategias_prepago 200 tea360 2 24).getD 0 default).interes_total := by
  rw [comparar_C7_eval]
  refine ⟨rfl, ?_⟩
  norm_num [List.getD]

/-- C4 counterexample: in row 2 of the French schedule for principal 100.01,
monthly rate exactly 1%, term 2, the stored installment is 50.76 while the
stored interest plus stored principal is 0.50 + 50.25 = 50.75: the exact
identity `installment = interestPortion + principalPortion` fails on the
stored values. -/
theorem C4_cx_cuota_no_es_suma :
    ¬ (((generar_tabla_francesa (10001/100) tea360 2).getD 1 default).cuota =
       ((generar_tabla_francesa (10001/100) tea360 2).getD 1 default).interes +
       ((generar_tabla_francesa (10001/100) tea360 2).getD 1 default).amortizacion) := by
  rw [tabla_C4_eval]
  norm_num [List.getD]

/-- C8: `tea_a_tem` and `tem_a_tea` are mutual inverses: for every
`x ∈ (-1, 10)`, `tem_a_tea (tea_a_tem x) = x`, exactly over the reals. -/
theorem C8_conversion_ida_vuelta (x : ℝ) (h1 : -1 < x) (h2 : x < 10) :
    tem_a_tea (tea_a_tem x) = x :=
  tem_a_tea_tea_a_tem h1

theorem C8_conversion_ida_vuelta_witness :
    (-1:ℝ) < 3 ∧ (3:ℝ) < 10 ∧ tem_a_tea (tea_a_tem 3) = 3 :=
  ⟨by norm_num, by norm_num, C8_conversion_ida_vuelta 3 (by norm_num) (by norm_num)⟩

/-- C9: `calcular_totales` has no failure modes: for every schedule it
returns exactly the sums of the `interes`, `amortizacion` and `cuota`
columns, and on the empty schedule all three totals are 0. -/
theorem C9_totales_sin_fallo :
    calcular_totales ([] : List (Fila ℝ)) = ⟨0, 0, 0⟩ ∧
    ∀ tabla : List (Fila ℝ), calcular_totales tabla =
      ⟨(tabla.map Fila.interes).sum, (tabla.map Fila.amortizacion).sum,
        (tabla.map Fila.cuota).sum⟩ :=
  ⟨rfl, fun _ => rfl⟩

/-- C10: `simular_pago_extraordinario` never mutates the schedule passed to
it: for every input schedule and in-range trigger month, the caller's
schedule after the call is the unchanged input (the source mutates only the
`.copy()` of the filtered prefix). -/
theorem C10_no_mutacion (tabla : List (Fila ℝ)) (mes_pago : ℤ)
    (monto_extra tea : ℝ) (tipo : TipoReduccion)
    (h1 : 1 ≤ mes_pago) (h2 : mes_pago < (tabla.length : ℤ)) :
    (simular_pago_extraordinario tabla mes_pago monto_extra tea tipo).2 = tabla := by
  unfold simular_pago_extraordinario
  exact simular_snd_eq _ _ _ _ _

theorem C10_no_mutacion_witness :
    (1:ℤ) ≤ 1 ∧ (1:ℤ) < ((generar_tabla_francesa 200 (1/5) 2).length : ℤ) ∧
    (simular_pago_extraordinario (generar_tabla_francesa 200 (1/5) 2) 1 50 (1/5)
      .plazo).2 = generar_tabla_francesa 200 (1/5) 2 := by
  have hlen := generar_tabla_francesa_length 200 (1/5) 2
  exact ⟨le_refl 1, by rw [hlen]; norm_num,
    C10_no_mutacion _ 1 50 (1/5) .plazo (le_refl 1) (by rw [hlen]; norm_num)⟩

/-- C3 (amended): the root finder's failure is never surfaced as an error.
When `npf.irr` finds no admissible root it returns `nan` without raising;
the `try` body annualizes it to `nan` and the caller receives that `nan` —
which `validar_tcea` even classifies as a VALID TCEA, since both of its
comparisons against `nan` are false. Python `None` arises only when the
call itself raises (bare `except`), and a found root is returned
annualized. No `ConvergenceError` exists anywhere in the code. -/
theorem C3_nan_y_none_sin_error :
    ∀ (monto tea : ℝ) (plazo : ℕ) (cd cm sd pm : ℝ),
      calcular_tcea_completa monto tea plazo cd cm sd pm .sinRaiz =
        some PyFloat.nan ∧
      validar_tcea (calcular_tcea_completa monto tea plazo cd cm sd pm .sinRaiz)
        tea = (true, .valida) ∧
      calcular_tcea_completa monto tea plazo cd cm sd pm .excepcion = none ∧
      validar_tcea (calcular_tcea_completa monto tea plazo cd cm sd pm .excepcion)
        tea = (false, .noCalculable) ∧
      ∀ r : ℝ, calcular_tcea_completa monto tea plazo cd cm sd pm (.raiz r) =
        some (PyFloat.val (anualizar_tir r)) :=
  fun _ _ _ _ _ _ _ => ⟨rfl, rfl, rfl, rfl, fun _ => rfl⟩

/-- C3 counterexample: a concrete input (zero principal, positive monthly
incidentals) whose cash flows admit no internal rate of return at all — so
`npf.irr` necessarily returns `nan` — and on which `calcular_tcea_completa`
returns the `nan` float through its success path, which `validar_tcea`
reports as a valid cost figure: no distinguishable `ConvergenceError`
reaches the caller; a garbage value silently does. -/
theorem C3_cx_nan_validada :
    sin_tir (flujos_tcea 0 tea360 2 0 0 0 3) ∧
    calcular_tcea_completa 0 tea360 2 0 0 0 3 .sinRaiz = some PyFloat.nan ∧
    validar_tcea (calcular_tcea_completa 0 tea360 2 0 0 0 3 .sinRaiz) tea360 =
      (true, .valida) := by
  refine ⟨?_, rfl, rfl⟩
  intro r hr
  rw [flujos_tcea_cero]
  have h1 : (0:ℝ) < 1 + r := by linarith
  simp only [npv, npvAux]
  positivity

/-- C2 (amended): the computed TCEA strictly exceeds the TEA whenever the
origination fee rate is strictly between 0 and 1, the other ancillary costs
are nonnegative, and the fixed monthly fee plus incidentals total at least
0.005 (half a cent, absorbing the worst-case rounding of the stored
installment). Without that half-cent proviso the claim fails: the stored
2-decimal installment can round down and push the TCEA below the TEA. -/
theorem C2_tcea_excede_tea (monto tea : ℝ) (plazo : ℕ) (cd cm sd pm r : ℝ)
    (hm : 0 < monto) (ht : 0 < tea) (hp : 1 ≤ plazo)
    (hcd0 : 0 < cd) (hcd1 : cd < 1) (hcm : 0 ≤ cm) (hsd : 0 ≤ sd) (hpm : 0 ≤ pm)
    (hfee : 1/200 ≤ cm + pm)
    (htir : es_tir (flujos_tcea monto tea plazo cd cm sd pm) r) :
    ∃ t, calcular_tcea_completa monto tea plazo cd cm sd pm (.raiz r) =
      some (PyFloat.val t) ∧ tea * 100 < t := by
  obtain ⟨hr, hroot⟩ := htir
  have htem := tea_a_tem_pos ht
  have hflows : flujos_tcea monto tea plazo cd cm sd pm =
      (-(monto - monto*cd)) ::
        (generar_tabla_francesa_tem monto (tea_a_tem tea) plazo).map
          (fun f => f.cuota + cm + f.saldo_inicial * sd + pm) := rfl
  have hne : (generar_tabla_francesa_tem monto (tea_a_tem tea) plazo).map
      (fun f => f.cuota + cm + f.saldo_inicial * sd + pm) ≠ [] := by
    intro hcon
    have hcon2 := congrArg List.length hcon
    simp [generar_tabla_francesa_tem, filasFrancesa_length] at hcon2
    omega
  have hpos := cargos_pos monto (tea_a_tem tea) plazo cm sd pm hm htem hp hsd hfee
  have hF2 := cargos_forall2 monto (tea_a_tem tea) plazo cm sd pm hm htem hp hsd hfee
  have hnpv : 0 < npv (flujos_tcea monto tea plazo cd cm sd pm) (tea_a_tem tea) := by
    rw [hflows]
    simp only [npv, npvAux, pow_zero, div_one]
    have hcomp := npvAux_le (tea_a_tem tea) (by linarith) hF2 1
    rw [npvAux_cuota_francesa monto (tea_a_tem tea) htem plazo hp] at hcomp
    have hmc : 0 < monto * cd := by positivity
    nlinarith [hcomp]
  have hlt : tea_a_tem tea < r := by
    rw [hflows] at hnpv hroot
    exact raiz_mayor _ _ hne hpos (tea_a_tem tea) r (by linarith) hr hnpv hroot
  refine ⟨anualizar_tir r, rfl, ?_⟩
  have hround : (1 + tea_a_tem tea)^(12:ℕ) = 1 + tea := by
    have h := tem_a_tea_tea_a_tem (show (-1:ℝ) < tea by linarith)
    unfold tem_a_tea at h
    linarith
  unfold anualizar_tir
  have hpow : (1 + tea_a_tem tea)^(12:ℕ) < (1+r)^(12:ℕ) :=
    pow_lt_pow_left₀ (by linarith) (by linarith) (by norm_num)
  rw [hround] at hpow
  linarith

theorem C2_tcea_excede_tea_witness :
    es_tir (flujos_tcea 100 tea360 1 (1/2) (1/100) 0 0) (5101/5000) ∧
    (0:ℝ) < 100 ∧ (0:ℝ) < tea360 ∧ (0:ℝ) < 1/2 ∧ (1:ℝ)/2 < 1 ∧
    (1:ℝ)/200 ≤ 1/100 + 0 ∧
    ∃ t, calcular_tcea_completa 100 tea360 1 (1/2) (1/100) 0 0
      (.raiz (5101/5000)) = some (PyFloat.val t) ∧ tea360 * 100 < t := by
  have htir : es_tir (flujos_tcea 100 tea360 1 (1/2) (1/100) 0 0) (5101/5000) := by
    refine ⟨by norm_num, ?_⟩
    rw [flujos_C2_wit_eval]
    simp only [npv, npvAux]
    norm_num
  exact ⟨htir, by norm_num, tea360_pos, by norm_num, by norm_num, by norm_num,
    C2_tcea_excede_tea 100 tea360 1 (1/2) (1/100) 0 0 (5101/5000) (by norm_num)
      tea360_pos (by norm_num) (by norm_num) (by norm_num) (by norm_num)
      (by norm_num) (by norm_num) (by norm_num) htir⟩

/-- C2 counterexample: at principal 100, TEA with exact monthly rate 1%,
term 2 and ALL ancillary costs zero (hence ≥ 0), the computation succeeds —
the cash flows built from the stored 2-decimal installment 50.75 (rounded
down from 50.7512...) admit an internal rate of return — and the returned
TCEA is strictly below the TEA percentage: TCEA ≥ TEA fails. -/
theorem C2_cx_redondeo_baja_tcea :
    ∃ r, es_tir (flujos_tcea 100 tea360 2 0 0 0 0) r ∧
      ∃ t, calcular_tcea_completa 100 tea360 2 0 0 0 0 (.raiz r) =
        some (PyFloat.val t) ∧ t < tea360 * 100 := by
  have hcont : Continuous (fun u : ℝ => npvPoly u [(-100:ℝ), 203/4, 203/4] 0) := by
    have hfn : (fun u : ℝ => npvPoly u [(-100:ℝ), 203/4, 203/4] 0) =
        fun u : ℝ => -100 * u^0 + (203/4 * u^1 + (203/4 * u^2 + 0)) := rfl
    rw [hfn]
    fun_prop
  have ha : npvPoly ((100:ℝ)/101) [(-100:ℝ), 203/4, 203/4] 0 < 0 := by
    simp only [npvPoly]
    norm_num
  have hb : (0:ℝ) < npvPoly 1 [(-100:ℝ), 203/4, 203/4] 0 := by
    simp only [npvPoly]
    norm_num
  have hsub := intermediate_value_Icc (by norm_num : (100:ℝ)/101 ≤ 1)
    hcont.continuousOn
  have h0mem : (0:ℝ) ∈ Set.Icc (npvPoly ((100:ℝ)/101) [(-100:ℝ), 203/4, 203/4] 0)
      (npvPoly 1 [(-100:ℝ), 203/4, 203/4] 0) := ⟨ha.le, hb.le⟩
  obtain ⟨u0, hu0mem, hu0⟩ := hsub h0mem
  have hu0a : u0 ≠ 100/101 := by
    intro hcon
    rw [hcon] at hu0
    linarith [ha, hu0.ge, hu0.le]
  have hu0b : u0 ≠ 1 := by
    intro hcon
    rw [hcon] at hu0
    linarith [hb, hu0.ge, hu0.le]
  have h1 : (100:ℝ)/101 < u0 := lt_of_le_of_ne hu0mem.1 (Ne.symm hu0a)
  have h2 : u0 < 1 := lt_of_le_of_ne hu0mem.2 hu0b
  have hu0pos : (0:ℝ) < u0 := by linarith
  refine ⟨1/u0 - 1, ⟨?_, ?_⟩, anualizar_tir (1/u0 - 1), rfl, ?_⟩
  · have : (0:ℝ) < 1/u0 := by positivity
    linarith
  · rw [flujos_C2_cx_eval]
    rw [npv, npvAux_eq_npvPoly (1/u0 - 1) u0 (ne_of_gt hu0pos) (by ring)]
    exact hu0
  · unfold anualizar_tir tea360
    have h3 : 1 + ((1:ℝ)/u0 - 1) = 1/u0 := by ring
    rw [h3]
    have h4 : (1/u0 : ℝ) < 101/100 := by
      rw [div_lt_div_iff₀ hu0pos (by norm_num : (0:ℝ) < 100)]
      linarith
    have h5 : ((1:ℝ)/u0)^(12:ℕ) < ((101:ℝ)/100)^(12:ℕ) :=
      pow_lt_pow_left₀ h4 (by positivity) (by norm_num)
    linarith

/-- C5 (amended): `simular_pago_extraordinario` returns `None` only for
trigger months at or beyond the schedule's end; for in-range months
(1 ≤ m < length) it returns a result; but for months below 1 the
`iloc[-1]` on the empty filtered prefix raises, so the call throws instead
of returning the explicit "not applicable" `None`. -/
theorem C5_mes_fuera_de_rango (tabla : List (Fila ℝ)) (mes_pago : ℤ)
    (monto_extra tea : ℝ) (tipo : TipoReduccion) (hwf : mesesDesde 1 tabla) :
    ((tabla.length : ℤ) ≤ mes_pago →
      (simular_pago_extraordinario tabla mes_pago monto_extra tea tipo).1 = .ok none) ∧
    (mes_pago ≤ 0 → mes_pago < (tabla.length : ℤ) →
      (simular_pago_extraordinario tabla mes_pago monto_extra tea tipo).1 = .error ()) ∧
    (1 ≤ mes_pago → mes_pago < (tabla.length : ℤ) →
      ∃ res, (simular_pago_extraordinario tabla mes_pago monto_extra tea tipo).1 =
        .ok (some res)) := by
  unfold simular_pago_extraordinario
  exact ⟨fun h => simular_fuera_de_rango _ _ _ _ _ h,
    fun h0 hlt => simular_mes_bajo _ _ _ _ _ hwf h0 hlt,
    fun h1 hlt => simular_en_rango _ _ _ _ _ hwf h1 hlt⟩

theorem C5_mes_fuera_de_rango_witness :
    mesesDesde 1 (generar_tabla_francesa 200 (1/5) 2) ∧
    (1:ℤ) ≤ 1 ∧ (1:ℤ) < ((generar_tabla_francesa 200 (1/5) 2).length : ℤ) ∧
    ∃ res, (simular_pago_extraordinario (generar_tabla_francesa 200 (1/5) 2) 1 50
      (1/5) .cuota).1 = .ok (some res) := by
  have hwf := mesesDesde_generar 200 (1/5) 2
  have hlen := generar_tabla_francesa_length 200 (1/5) 2
  exact ⟨hwf, le_refl 1, by rw [hlen]; norm_num,
    (C5_mes_fuera_de_rango _ 1 50 (1/5) .cuota hwf).2.2 (le_refl 1)
      (by rw [hlen]; norm_num)⟩

/-- C5 counterexample: trigger month 0 is out of range (below 1), yet the
call does not return the explicit `None`: it raises (modelled `.error ()`),
because only the upper bound is validated before `iloc[-1]`. -/
theorem C5_cx_mes_cero_lanza :
    (simular_pago_extraordinario (generar_tabla_francesa 200 (1/5) 2) 0 50 (1/5)
      .cuota).1 = .error () := by
  unfold simular_pago_extraordinario
  apply simular_mes_bajo _ _ _ _ _ (mesesDesde_generar 200 (1/5) 2) (by norm_num)
  rw [generar_tabla_francesa_length]
  norm_num

end OptiCred
